import Mathlib

set_option maxHeartbeats 1000000
set_option maxRecDepth 4000

namespace Stim

/-!
Shallow embedding of the `stim` behaviour-attachment framework
(`src/Connector.js`, `src/Aspect.js`, `src/ElementEventHandler.js`,
`src/src/ElementConnection.js`, and the `Registry` / `AspectAttributeSyncer` /
`Config` modules).

Modelling conventions, used throughout:
* JavaScript `Map`s are insertion-ordered association lists (`mapGet` /
  `mapSet` / `mapDelete` / `mapHas`); `Set`s are duplicate-free lists
  (`setAdd` / `setDelete`).
* A per-element hidden registry (`stim_tm_host`, `stim_tm_child`,
  `stim_tm_handler`) that is still `undefined` in JavaScript is identified
  with the empty map.
* DOM elements live in an indexed store (`ConnState.doc`); aspect instances
  live in `ConnState.insts` and are identified by their index, which models
  JavaScript object identity.
* Code paths on which the JavaScript would throw a `TypeError` (a property
  access on `undefined`) are modelled by returning `none` / `Except.error`.
* Lifecycle and user callbacks are uninterpreted: invoking one appends an
  `Event` to the trace, exactly where the source invokes it.
-/

/-- Lookup in an insertion-ordered association list, modelling `Map.get`. -/
def mapGet {κ α : Type} [BEq κ] (m : List (κ × α)) (k : κ) : Option α :=
  (m.find? (fun p => p.1 == k)).map (fun p => p.2)

/-- Key-membership test, modelling `Map.has`. -/
def mapHas {κ α : Type} [BEq κ] (m : List (κ × α)) (k : κ) : Bool :=
  m.any (fun p => p.1 == k)

/-- Update modelling `Map.set`: an existing key keeps its position, a new key
is appended at the end (JavaScript `Map`s preserve insertion order). -/
def mapSet {κ α : Type} [BEq κ] (m : List (κ × α)) (k : κ) (v : α) : List (κ × α) :=
  if mapHas m k then m.map (fun p => if p.1 == k then (k, v) else p) else m ++ [(k, v)]

/-- Deletion modelling `Map.delete`. -/
def mapDelete {κ α : Type} [BEq κ] (m : List (κ × α)) (k : κ) : List (κ × α) :=
  m.filter (fun p => p.1 != k)

/-- Insertion modelling `Set.add` (no duplicates, appended at the end). -/
def setAdd {α : Type} [BEq α] (s : List α) (x : α) : List α :=
  if s.contains x then s else s ++ [x]

/-- Deletion modelling `Set.delete`. -/
def setDelete {α : Type} [BEq α] (s : List α) (x : α) : List α :=
  s.filter (fun y => y != x)

/-- Boolean test that `pat` occurs at the start of `hay` (character lists). -/
def listPre : List Char → List Char → Bool
  | [], _ => true
  | _ :: _, [] => false
  | p :: ps, h :: hs => p == h && listPre ps hs

/-- Boolean test that `pat` occurs contiguously somewhere inside `hay`. -/
def listContainsSub : List Char → List Char → Bool
  | [], pat => pat.isEmpty
  | h :: hs, pat => listPre pat (h :: hs) || listContainsSub hs pat

/-- JavaScript `String.prototype.includes`. -/
def strContainsSub (hay pat : String) : Bool :=
  listContainsSub hay.data pat.data

/-- JavaScript `String.prototype.startsWith`. -/
def jsStartsWith (s p : String) : Bool :=
  listPre p.data s.data

/-- JavaScript `String.prototype.endsWith`. -/
def jsEndsWith (s p : String) : Bool :=
  listPre p.data.reverse s.data.reverse

/-- Split a character list at any of the delimiter characters; every
delimiter occurrence produces a boundary, exactly like `String.prototype.split`
with a character class. `cur` is the (reversed) chunk being accumulated. -/
def splitCharsAux (delims : List Char) : List Char → List Char → List String
  | [], cur => [String.mk cur.reverse]
  | c :: rest, cur =>
    if delims.contains c then String.mk cur.reverse :: splitCharsAux delims rest []
    else splitCharsAux delims rest (c :: cur)

/-- JavaScript `descriptor.split(/[.#]/)` from `ElementConnection`. -/
def splitDotHash (s : String) : List String :=
  splitCharsAux ['.', '#'] s.data []

/-- JavaScript `value.split(' ')`. -/
def splitSpace (s : String) : List String :=
  splitCharsAux [' '] s.data []

/-- JavaScript `s.split('.')`. -/
def splitDot (s : String) : List String :=
  splitCharsAux ['.'] s.data []

/-- JavaScript `s.split('+')`. -/
def splitPlus (s : String) : List String :=
  splitCharsAux ['+'] s.data []

/-- JavaScript `s.split('[')`. -/
def splitBracket (s : String) : List String :=
  splitCharsAux ['['] s.data []

/-- JavaScript split of a handler descriptor on the regex alternation of the
two-character arrow and the hash (from `ElementEventHandler`): at each
position the arrow is tried before `#`. -/
def splitArrowHashAux : List Char → List Char → List String
  | [], cur => [String.mk cur.reverse]
  | '-' :: '>' :: rest, cur => String.mk cur.reverse :: splitArrowHashAux rest []
  | '#' :: rest, cur => String.mk cur.reverse :: splitArrowHashAux rest []
  | c :: rest, cur => splitArrowHashAux rest (c :: cur)

def splitArrowHash (s : String) : List String :=
  splitArrowHashAux s.data []

/-- JavaScript `s.replace(c, '')` for a single character: removes only the
first occurrence. -/
def removeFirstChar (s : String) (c : Char) : String :=
  let rec go : List Char → List Char
    | [] => []
    | x :: xs => if x == c then xs else x :: go xs
  String.mk (go s.data)

/-- Drop the first occurrence of `pat` from `s` (JavaScript
`s.replace(pat, '')` for a plain-string pattern). -/
def removeFirstSub (s pat : String) : String :=
  let rec go : List Char → List Char
    | [] => []
    | x :: xs => if listPre pat.data (x :: xs) then xs.drop (pat.data.length - 1) else x :: go xs
  if pat.data.isEmpty then s else String.mk (go s.data)

/-- The `camelCase` helper from `Utils.js`: replaces every dash followed by a
lowercase letter with that letter uppercased (global regex with the
capture group `([a-z])` after a dash). -/
def camelCaseAux : List Char → List Char
  | [] => []
  | '-' :: c :: rest => if c.isLower then c.toUpper :: camelCaseAux rest else '-' :: camelCaseAux (c :: rest)
  | c :: rest => c :: camelCaseAux rest

def camelCase (s : String) : String :=
  String.mk (camelCaseAux s.data)

/-- The `kebabCase` helper from `Utils.js`, regex
`/[A-Z]+(?![a-z])|[A-Z]/g` with a dash for every match at nonzero offset:
an uppercase character is preceded by a dash when it does not continue an
uppercase run, or when it is the last of a run and a lowercase follows. -/
def kebabCaseAux : Bool → Bool → List Char → List Char
  | _, _, [] => []
  | atStart, prevUpper, c :: rest =>
    if c.isUpper then
      let nextLower := match rest with | d :: _ => d.isLower | [] => false
      let dash := !atStart && (!prevUpper || nextLower)
      (if dash then ['-'] else []) ++ c.toLower :: kebabCaseAux false true rest
    else
      c :: kebabCaseAux false false rest

def kebabCase (s : String) : String :=
  String.mk (kebabCaseAux true false s.data)

/-- JSON values as stored by the framework. Numeric literals are modelled as
integers (the embedding does not model floating point; `jsonParse` rejects
fractional or exponent literals). -/
inductive JVal : Type
  | str (s : String)
  | num (n : Int)
  | bool (b : Bool)
  | null
  | arr (elems : List JVal)
  | obj (fields : List (String × JVal))

mutual

/-- Structural equality of JSON values. JavaScript `===` compares object
references; the claims settled in this file do not distinguish the two (see
the comments at its use sites). -/
def JVal.beq : JVal → JVal → Bool
  | .str a, .str b => a == b
  | .num a, .num b => a == b
  | .bool a, .bool b => a == b
  | .null, .null => true
  | .arr a, .arr b => JVal.beqList a b
  | .obj a, .obj b => JVal.beqFields a b
  | _, _ => false

def JVal.beqList : List JVal → List JVal → Bool
  | [], [] => true
  | a :: as, b :: bs => JVal.beq a b && JVal.beqList as bs
  | _, _ => false

def JVal.beqFields : List (String × JVal) → List (String × JVal) → Bool
  | [], [] => true
  | (k, a) :: as, (l, b) :: bs => k == l && JVal.beq a b && JVal.beqFields as bs
  | _, _ => false

end

instance : BEq JVal := ⟨JVal.beq⟩

/-- JavaScript truthiness of a JSON value. -/
def jvalTruthy : JVal → Bool
  | .str s => s != ""
  | .num n => n != 0
  | .bool b => b
  | .null => false
  | .arr _ => true
  | .obj _ => true

/-- Skip JSON whitespace. -/
def skipWs (cs : List Char) : List Char :=
  cs.dropWhile (fun c => c == ' ' || c == '\n' || c == '\t' || c == '\r')

def hexVal (c : Char) : Option Nat :=
  let n := c.toNat
  if 48 ≤ n ∧ n ≤ 57 then some (n - 48)
  else if 97 ≤ n ∧ n ≤ 102 then some (n - 87)
  else if 65 ≤ n ∧ n ≤ 70 then some (n - 55)
  else none

/-- Parse the body of a JSON string literal (after the opening quote),
returning the decoded characters and the remaining input. -/
def parseStrBody : List Char → Option (List Char × List Char)
  | [] => none
  | '"' :: rest => some ([], rest)
  | '\\' :: e :: rest =>
    match e with
    | 'u' =>
      match rest with
      | a :: b :: c :: d :: rest2 =>
        match hexVal a, hexVal b, hexVal c, hexVal d with
        | some x, some y, some z, some w =>
          (parseStrBody rest2).map (fun p => (Char.ofNat (x * 4096 + y * 256 + z * 16 + w) :: p.1, p.2))
        | _, _, _, _ => none
      | _ => none
    | _ =>
      let dec : Option Char :=
        if e == '"' then some '"' else if e == '\\' then some '\\'
        else if e == '/' then some '/' else if e == 'n' then some '\n'
        else if e == 't' then some '\t' else if e == 'r' then some '\r'
        else if e == 'b' then some (Char.ofNat 8) else if e == 'f' then some (Char.ofNat 12)
        else none
      match dec with
      | some c => (parseStrBody rest).map (fun p => (c :: p.1, p.2))
      | none => none
  | c :: rest =>
    if c.toNat < 32 then none
    else (parseStrBody rest).map (fun p => (c :: p.1, p.2))

/-- Parse a JSON integer literal (fractional and exponent forms are rejected
by this embedding). -/
def parseNum (cs : List Char) : Option (Int × List Char) :=
  let (neg, cs1) := match cs with | '-' :: t => (true, t) | _ => (false, cs)
  let digits := cs1.takeWhile Char.isDigit
  let rest := cs1.dropWhile Char.isDigit
  if digits.isEmpty then none
  else if digits.length > 1 && digits.headD '0' == '0' then none
  else
    match rest with
    | '.' :: _ => none
    | 'e' :: _ => none
    | 'E' :: _ => none
    | _ =>
      let n : Nat := digits.foldl (fun acc d => acc * 10 + (d.toNat - '0'.toNat)) 0
      some (if neg then -(n : Int) else (n : Int), rest)

mutual

/-- Recursive-descent JSON parser, fuelled; models `JSON.parse` up to the
restrictions noted on `JVal`. -/
def parseJ : Nat → List Char → Option (JVal × List Char)
  | 0, _ => none
  | Nat.succ fuel, cs =>
    match skipWs cs with
    | 'n' :: 'u' :: 'l' :: 'l' :: rest => some (JVal.null, rest)
    | 't' :: 'r' :: 'u' :: 'e' :: rest => some (JVal.bool true, rest)
    | 'f' :: 'a' :: 'l' :: 's' :: 'e' :: rest => some (JVal.bool false, rest)
    | '"' :: rest => (parseStrBody rest).map (fun p => (JVal.str (String.mk p.1), p.2))
    | '[' :: rest =>
      (match skipWs rest with
       | ']' :: rest2 => some (JVal.arr [], rest2)
       | _ => (parseElems fuel rest).map (fun p => (JVal.arr p.1, p.2)))
    | '{' :: rest =>
      (match skipWs rest with
       | '}' :: rest2 => some (JVal.obj [], rest2)
       | _ => (parseFields fuel rest).map (fun p => (JVal.obj p.1, p.2)))
    | other => (parseNum other).map (fun p => (JVal.num p.1, p.2))

def parseElems : Nat → List Char → Option (List JVal × List Char)
  | 0, _ => none
  | Nat.succ fuel, cs =>
    match parseJ fuel cs with
    | none => none
    | some (v, rest) =>
      match skipWs rest with
      | ',' :: rest2 =>
        (parseElems fuel rest2).map (fun p => (v :: p.1, p.2))
      | ']' :: rest2 => some ([v], rest2)
      | _ => none

def parseFields : Nat → List Char → Option (List (String × JVal) × List Char)
  | 0, _ => none
  | Nat.succ fuel, cs =>
    match skipWs cs with
    | '"' :: rest =>
      match parseStrBody rest with
      | none => none
      | some (key, rest2) =>
        match skipWs rest2 with
        | ':' :: rest3 =>
          match parseJ fuel rest3 with
          | none => none
          | some (v, rest4) =>
            match skipWs rest4 with
            | ',' :: rest5 =>
              (parseFields fuel rest5).map (fun p => (mapSet p.1 (String.mk key) v, p.2))
            | '}' :: rest5 => some ([(String.mk key, v)], rest5)
            | _ => none
        | _ => none
    | _ => none

end

/-- The executable stand-in for `JSON.parse`: `none` models a thrown
`SyntaxError`. -/
def jsonParse (s : String) : Option JVal :=
  match parseJ (2 * s.data.length + 2) s.data with
  | some (v, rest) => if (skipWs rest).isEmpty then some v else none
  | none => none

def quoteJsonAux : List Char → List Char
  | [] => []
  | c :: rest =>
    (if c == '"' then ['\\', '"']
     else if c == '\\' then ['\\', '\\']
     else if c == '\n' then ['\\', 'n']
     else if c == '\t' then ['\\', 't']
     else if c == '\r' then ['\\', 'r']
     else [c]) ++ quoteJsonAux rest

def quoteJson (s : String) : String :=
  "\"" ++ String.mk (quoteJsonAux s.data) ++ "\""

mutual

/-- The executable stand-in for `JSON.stringify` (total on `JVal`: the model
has no cyclic values, so the `catch` arm of `write` is unreachable). -/
def jsonStringify : JVal → String
  | .str s => quoteJson s
  | .num n => toString n
  | .bool b => if b then "true" else "false"
  | .null => "null"
  | .arr xs => "[" ++ stringifyElems xs ++ "]"
  | .obj fs => "\x7b" ++ stringifyFields fs ++ "\x7d"

def stringifyElems : List JVal → String
  | [] => ""
  | [x] => jsonStringify x
  | x :: y :: rest => jsonStringify x ++ "," ++ stringifyElems (y :: rest)

def stringifyFields : List (String × JVal) → String
  | [] => ""
  | [(k, v)] => quoteJson k ++ ":" ++ jsonStringify v
  | (k, v) :: q :: rest => quoteJson k ++ ":" ++ jsonStringify v ++ "," ++ stringifyFields (q :: rest)

end

/-!
Model of `AspectAttributeSyncer` (`src/unnamed/part_002`). The syncer of an
aspect class is determined by the declared attribute defaults `decl`
(`static attributes`, an insertion-ordered key/default list), the aspect
token, and the set `methods` of callback names the user class defines
(modelling the `typeof aspect[name] === 'function'` checks).
-/

/-- Per-instance state seen by the syncer: the host element's attributes, the
private property slots (`#attrKey` fields, absent before first assignment),
and the trace of `<attrKey>Changed(old, new)` callback invocations. -/
structure SyncSt where
  attrs : List (String × String)
  slots : List (String × JVal)
  changed : List (String × Option JVal × JVal)

/-- `convertKey`: the individual data attribute name for a property key. -/
def dataAttrOf (token attrKey : String) : String :=
  "data-" ++ token ++ "." ++ kebabCase attrKey

/-- Is the declared default of JavaScript `typeof` equal to `'object'`
(objects, arrays and `null`)? -/
def isObjType : Option JVal → Bool
  | some (JVal.obj _) => true
  | some (JVal.arr _) => true
  | some JVal.null => true
  | _ => false

namespace AspectAttributeSyncer

/-- `AspectAttributeSyncer.write`: encode a property value for an attribute,
dispatching on the `typeof` of the declared default. -/
def write (decl : List (String × JVal)) (attrKey : String) (val : JVal) : String :=
  match mapGet decl attrKey with
  | some (JVal.str _) =>
    (match val with
     | JVal.str s => s
     | JVal.num n => toString n
     | JVal.bool b => if b then "true" else "false"
     | JVal.null => "null"
     | other => jsonStringify other)
  | some (JVal.bool _) => if jvalTruthy val then "" else "false"
  | _ => jsonStringify val

/-- `AspectAttributeSyncer.read`: decode an attribute string, dispatching on
the `typeof` of the declared default; a failed `JSON.parse` is caught and
falls back to the raw string. -/
def read (decl : List (String × JVal)) (attrKey : String) (val : String) : JVal :=
  match mapGet decl attrKey with
  | some (JVal.str _) => JVal.str val
  | some (JVal.bool _) => JVal.bool (val != "0" && val != "false")
  | _ =>
    match jsonParse val with
    | some j => j
    | none => JVal.str val

/-- `AspectAttributeSyncer.setAttribute`. Equality of values is structural
(`JVal.beq`); JavaScript `===` is reference equality on objects, but for
object-typed values the encoded-form comparison in the removal branch
subsumes the structural one, so the two readings do not differ observably in
the theorems below. -/
def setAttribute (decl : List (String × JVal)) (token : String) (methods : List String)
    (st : SyncSt) (attrKey : String) (val : JVal) (sync : Bool) : SyncSt :=
  let cur := mapGet st.slots attrKey
  if (cur.map (fun c => JVal.beq val c)).getD false then st
  else
    let st1 : SyncSt :=
      { st with
        slots := mapSet st.slots attrKey val,
        changed := st.changed ++
          (if methods.contains (attrKey ++ "Changed") then [(attrKey, cur, val)] else []) }
    if !sync then st1
    else
      let writeVal := write decl attrKey val
      let writeName := dataAttrOf token attrKey
      if isObjType (mapGet decl attrKey) &&
          writeVal == write decl attrKey ((mapGet decl attrKey).getD JVal.null) then
        { st1 with attrs := mapDelete st1.attrs writeName }
      else if (match mapGet decl attrKey with
               | some d => JVal.beq val d
               | none => false) then
        { st1 with attrs := mapDelete st1.attrs writeName }
      else
        { st1 with attrs := mapSet st1.attrs writeName writeVal }

/-- One iteration of the key loop inside `initializeAttributes`: precedence is
individual attribute, then bulk-JSON key, then injected-override key, then the
declared default. -/
def initStep (decl : List (String × JVal)) (token : String) (methods : List String)
    (attrAttributes argAttributes : List (String × JVal))
    (st : SyncSt) (attrKey : String) (dflt : JVal) : SyncSt :=
  let dataAttr := dataAttrOf token attrKey
  match mapGet st.attrs dataAttr with
  | some raw => setAttribute decl token methods st attrKey (read decl attrKey raw) false
  | none =>
    match mapGet attrAttributes attrKey with
    | some v => setAttribute decl token methods st attrKey v true
    | none =>
      match mapGet argAttributes attrKey with
      | some v => setAttribute decl token methods st attrKey v true
      | none => setAttribute decl token methods st attrKey dflt false

/-- Own enumerable properties of a parsed JSON value, as probed by
`Object.prototype.hasOwnProperty.call`: objects expose their fields, arrays
and strings expose their indices and `length`, other primitives expose
nothing. -/
def ownFields : JVal → List (String × JVal)
  | JVal.obj fs => fs
  | JVal.arr xs =>
    ((List.range xs.length).zip xs).map (fun p => (toString p.1, p.2)) ++
      [("length", JVal.num xs.length)]
  | JVal.str s =>
    ((List.range s.data.length).zip s.data).map
        (fun p => (toString p.1, JVal.str (String.mk [p.2]))) ++
      [("length", JVal.num s.data.length)]
  | _ => []

/-- The bulk-attribute parse at the top of `initializeAttributes`:
`JSON.parse(el.getAttribute(bulk) || '{}')` followed by the per-key
`hasOwnProperty` probing of the result. The `JSON.parse` call is bare (no
`try`), so a malformed value propagates as a thrown `SyntaxError`. -/
def bulkParse (decl : List (String × JVal)) (token : String)
    (attrs : List (String × String)) : Except String (List (String × JVal)) :=
  match mapGet attrs ("data-" ++ token) with
  | none => Except.ok []
  | some v =>
    if v == "" then Except.ok []
    else
      match jsonParse v with
      | none => Except.error "SyntaxError: JSON.parse"
      | some JVal.null =>
        -- `hasOwnProperty.call(null, key)` throws for the first declared key
        if decl.isEmpty then Except.ok [] else Except.error "TypeError: null has no properties"
      | some j => Except.ok (ownFields j)

/-- `AspectAttributeSyncer.initializeAttributes`. The bulk attribute is
parsed first (`bulkParse`, failure propagates), each declared key is then
processed by `initStep`, and the bulk attribute is removed at the end. -/
def initializeAttributes (decl : List (String × JVal)) (token : String)
    (methods : List String) (argAttributes : List (String × JVal))
    (st : SyncSt) : Except String SyncSt :=
  let bulkName := "data-" ++ token
  match bulkParse decl token st.attrs with
  | Except.error e => Except.error e
  | Except.ok attrAttributes =>
    let st2 := decl.foldl
      (fun st kv => initStep decl token methods attrAttributes argAttributes st kv.1 kv.2) st
    Except.ok { st2 with attrs := mapDelete st2.attrs bulkName }

/-- Does the declared default of a key route its attribute values through
JSON decoding (neither string- nor boolean-typed)? -/
def usesJsonDecoding (decl : List (String × JVal)) (k : String) : Bool :=
  match mapGet decl k with
  | some (JVal.str _) => false
  | some (JVal.bool _) => false
  | _ => true

/-- The first-match-wins source order stated by the specification for one
declared property: individual attribute, then bulk-JSON key, then
injected-override key, then the declared default. The main precedence
theorem identifies the slot the code computes with this value. -/
def winner (decl : List (String × JVal)) (token : String)
    (attrAttributes argAttributes : List (String × JVal))
    (attrs0 : List (String × String)) (k : String) (dflt : JVal) : JVal :=
  match mapGet attrs0 (dataAttrOf token k) with
  | some raw => read decl k raw
  | none =>
    match mapGet attrAttributes k with
    | some v => v
    | none =>
      match mapGet argAttributes k with
      | some v => v
      | none => dflt

end AspectAttributeSyncer

/-!
Data model for the Connector subsystem (`src/Connector.js`,
`src/src/ElementConnection.js`, `src/ElementEventHandler.js`,
`src/Aspect.js`, `Config`). Property storage of instances is modelled
separately by the `AspectAttributeSyncer` section above; the Connector-level
state tracks instance identity, lifecycle flags, target sets, the per-element
hidden registries and the orphan indices.
-/

/-- `Config` defaults. -/
def attributePrefix : String := "data-"

def connectAttribute : String := "connect"

def handlerAttribute : String := "handler"

def scopeAttribute : String := "scope"

def customElementPrefix : String := "aspect-"

/-- `Connector.connectAttr`. -/
def connectAttr : String := attributePrefix ++ connectAttribute

/-- `Connector.handlerAttr`. -/
def handlerAttr : String := attributePrefix ++ handlerAttribute

/-- `Connector.scopeAttr`. -/
def scopeAttr : String := attributePrefix ++ scopeAttribute

/-- An `ElementConnection` record. A constructor that returned early on a
malformed descriptor leaves `aspectToken`, `type`, `hostId` and `aspect`
unset (`none`). `aspect` is the index of the resolved instance. -/
structure Conn where
  el : Nat
  aspectToken : Option String
  type : Option String
  hostId : Option String
  aspect : Option Nat
  connected : Bool
deriving DecidableEq

/-- An `ElementEventHandler` record: the fields captured by the listener
closure. `tokenKey` is `this.token` (the kebab-cased `token.method` map key);
`guardKey` / `guardModifier` are what `getTriggerGuard` captured. -/
structure Handler where
  event : String
  listenerOptions : List (String × Bool)
  aspectToken : String
  aspectMethod : String
  tokenKey : String
  hostId : Option String
  guardKey : Option String
  guardModifier : Option String
deriving DecidableEq

/-- An `Aspect` instance (`__internal` plus identity): its token, host
element index, connected flag, and the per-target-type element sets. -/
structure AspectInst where
  token : String
  host : Nat
  isConnected : Bool
  elements : List (String × List Nat)
deriving DecidableEq

/-- A processed aspect class as held by the registry: the injected tokens
(`static aspects`, already converted to key form), the declared target types
(`static elements`), and the method names defined by the user class
(consulted by every `typeof aspect[name] === 'function'` check). -/
structure AspectClass where
  aspects : List String
  elements : List String
  methods : List String
deriving DecidableEq

/-- A DOM element: tag name (uppercase, as `tagName` reports), `id`, parent
link, document attachment (`isConnected`), attributes, and the three hidden
per-element registries. -/
structure Elem where
  tagName : String
  idStr : String
  parent : Option Nat
  attached : Bool
  attrs : List (String × String)
  tm_host : List (String × Nat)
  tm_child : List (String × Conn)
  tm_handler : List (String × Handler)
deriving DecidableEq

/-- The relevant registry state: `aspectRegister` and `customTags` (tag name
to token). The selector-callback register only invokes external callbacks
and is referenced by no claim, so it is not carried. -/
structure Registry where
  aspectRegister : List (String × AspectClass)
  customTags : List (String × String)
deriving DecidableEq

/-- Callback invocations recorded by the model, in invocation order. -/
inductive Event where
  | initialized (i : Nat)
  | connected (i : Nat)
  | disconnected (i : Nat)
  | elemConnected (i : Nat) (ty : String) (el : Nat)
  | elemDisconnected (i : Nat) (ty : String) (el : Nat)
  | listenerAdded (el : Nat) (key : String)
  | listenerRemoved (el : Nat) (key : String)
  | warnMissing (token : String)
deriving DecidableEq

/-- Global mutable state of the Connector: the document, the instance store,
`connectedAspects`, the two orphan indices and the callback trace. -/
structure ConnState where
  doc : List Elem
  insts : List AspectInst
  connectedAspects : List Nat
  orphanHosts : List (String × List (Nat × List String))
  orphans : List (Nat × List String)
  trace : List Event
deriving DecidableEq

def emptyElem : Elem :=
  ⟨"DIV", "", none, false, [], [], [], []⟩

def getEl (s : ConnState) (e : Nat) : Elem :=
  s.doc.getD e emptyElem

def setEl (s : ConnState) (e : Nat) (el : Elem) : ConnState :=
  { s with doc := s.doc.set e el }

def getAttrVal (s : ConnState) (e : Nat) (name : String) : Option String :=
  mapGet (getEl s e).attrs name

def emit (s : ConnState) (ev : Event) : ConnState :=
  { s with trace := s.trace ++ [ev] }

/-- Method names defined by the class registered for a token (empty when the
token is unregistered). -/
def methodsOf (reg : Registry) (tok : String) : List String :=
  ((mapGet reg.aspectRegister tok).map AspectClass.methods).getD []

/-- `document.getElementById`: the first document-attached element carrying
the id (absent or empty id resolves nothing). -/
def getElementById (s : ConnState) (i : String) : Option Nat :=
  if i == "" then none
  else (List.range s.doc.length).find? (fun j => (getEl s j).attached && (getEl s j).idStr == i)

def ancestorChainAux (s : ConnState) : Nat → Nat → List Nat
  | 0, _ => []
  | Nat.succ fuel, e =>
    e :: (match (getEl s e).parent with
          | some p => ancestorChainAux s fuel p
          | none => [])

/-- The inclusive ancestor chain of an element (self first), as walked by
`Element.closest`. -/
def ancestorChain (s : ConnState) (e : Nat) : List Nat :=
  ancestorChainAux s (s.doc.length + 1) e

/-- Does element `j` match the scope selector for `tok` (scope attribute
containing the space-surrounded token as a substring)? -/
def scopeMatches (s : ConnState) (j : Nat) (tok : String) : Bool :=
  match getAttrVal s j scopeAttr with
  | some v => strContainsSub v (" " ++ tok ++ " ")
  | none => false

/-- `el.closest` on the scope selector, as used by `ElementConnection`. -/
def closestScope (s : ConnState) (e : Nat) (tok : String) : Option Nat :=
  (ancestorChain s e).find? (fun j => scopeMatches s j tok)

/-- Does element `j` match the connect-attribute selector used by the action
listener: the attribute equals the token, or starts with `token ⬝ space`,
ends with `space ⬝ token`, or contains `space ⬝ token ⬝ space`? -/
def connectTokenMatches (s : ConnState) (j : Nat) (tok : String) : Bool :=
  match getAttrVal s j connectAttr with
  | some v =>
    v == tok || jsStartsWith v (tok ++ " ") || jsEndsWith v (" " ++ tok) ||
      strContainsSub v (" " ++ tok ++ " ")
  | none => false

/-- `el.closest` on the connect-attribute selector from
`ElementEventHandler.listener`. -/
def closestConnectToken (s : ConnState) (e : Nat) (tok : String) : Option Nat :=
  (ancestorChain s e).find? (fun j => connectTokenMatches s j tok)

/-- Truthiness of a connection's stored `hostId` (an empty string is falsy in
every use the source makes of it). -/
def connTruthyHostId (c : Conn) : Bool :=
  (c.hostId.getD "") != ""

/-- Write a connection record back into its element's `stim_tm_child` map
(JavaScript mutates the aliased object in place). -/
def storeConn (s : ConnState) (e : Nat) (d : String) (c : Conn) : ConnState :=
  setEl s e { getEl s e with tm_child := mapSet (getEl s e).tm_child d c }

def blankConn (e : Nat) : Conn :=
  ⟨e, none, none, none, none, false⟩

/-- Add an element to instance `j`'s target set for `ty` (the guarded
`aspect.__internal.elements.get(type)?.add(el)`). -/
def instAddElem (s : ConnState) (j : Nat) (ty : String) (el : Nat) : ConnState :=
  match s.insts.get? j with
  | none => s
  | some a =>
    let elems :=
      match mapGet a.elements ty with
      | some set => mapSet a.elements ty (setAdd set el)
      | none => a.elements
    { s with insts := s.insts.set j { a with elements := elems } }

/-- Remove an element from instance `j`'s target set for `ty` (the guarded
`aspect.__internal.elements.get(type)?.delete(el)`). -/
def instDelElem (s : ConnState) (j : Nat) (ty : String) (el : Nat) : ConnState :=
  match s.insts.get? j with
  | none => s
  | some a =>
    let elems :=
      match mapGet a.elements ty with
      | some set => mapSet a.elements ty (setDelete set el)
      | none => a.elements
    { s with insts := s.insts.set j { a with elements := elems } }

namespace ElementConnection

/-- The `ElementConnection` constructor: split the descriptor on dots and
hashes, return early (recording nothing) when token or type is missing,
otherwise resolve the owning element by id or by the closest scope-marked
ancestor and store the record under the raw descriptor. -/
def new (s : ConnState) (e : Nat) (d : String) : Conn × ConnState :=
  let parts := splitDotHash d
  let aspectToken := (parts.get? 0).getD ""
  let ty := (parts.get? 1).getD ""
  if ty == "" || aspectToken == "" then (blankConn e, s)
  else
    let hostId := parts.get? 2
    let aspectEl :=
      if (hostId.getD "") != "" then getElementById s (hostId.getD "")
      else closestScope s e aspectToken
    let aspect := aspectEl.bind (fun j => mapGet (getEl s j).tm_host aspectToken)
    let c : Conn := ⟨e, some aspectToken, some ty, hostId, aspect, false⟩
    (c, storeConn s e d c)

/-- `ElementConnection.connect`: no-op when already connected or unresolved;
otherwise add the element to the owning instance's target-type set (guarded
`?.add`) and invoke `<type>ElementConnected` when the class defines it. -/
def connect (reg : Registry) (s : ConnState) (c : Conn) : Conn × ConnState :=
  if c.connected then (c, s)
  else
    match c.aspect with
    | none => (c, s)
    | some j =>
      match s.insts.get? j with
      | none => (c, s)   -- unreachable for well-formed states: the index was stored from a live instance
      | some a =>
        let ty := c.type.getD ""
        let s := instAddElem s j ty c.el
        let s :=
          if (methodsOf reg a.token).contains (camelCase ty ++ "ElementConnected") then
            emit s (.elemConnected j ty c.el)
          else s
        ({ c with connected := true }, s)

/-- `ElementConnection.disconnect`: the mirror image of `connect`. -/
def disconnect (reg : Registry) (s : ConnState) (c : Conn) : Conn × ConnState :=
  if !c.connected then (c, s)
  else
    match c.aspect with
    | none => (c, s)
    | some j =>
      match s.insts.get? j with
      | none => (c, s)
      | some a =>
        let ty := c.type.getD ""
        let s := instDelElem s j ty c.el
        let s :=
          if (methodsOf reg a.token).contains (camelCase ty ++ "ElementDisconnected") then
            emit s (.elemDisconnected j ty c.el)
          else s
        ({ c with connected := false }, s)

end ElementConnection

/-- A native event as seen by the listener: the pressed key and the set of
modifier names whose `<modifier>Key` property is truthy on the event. -/
structure EvInfo where
  key : String
  modifiers : List String
deriving DecidableEq

/-- What a dispatch performs when it does not no-op: the resolved instance,
the invoked method, the `prevent` / `stop` option flags applied, and the
gathered parameter object. -/
structure DispatchCall where
  inst : Nat
  method : String
  prevent : Bool
  stop : Bool
  params : JVal

namespace ElementEventHandler

/-- `completeDescriptor`: prepend the tag-dependent default event when the
descriptor has no arrow. `el.type` of an input is modelled by its lowercased
`type` attribute. -/
def completeDescriptor (s : ConnState) (e : Nat) (d : String) : String :=
  if strContainsSub d "->" then d
  else
    let tag := (getEl s e).tagName
    if tag == "FORM" then "submit->" ++ d
    else if tag == "INPUT" && ((getAttrVal s e "type").getD "").toLower != "submit" then
      "input->" ++ d
    else if tag == "TEXTAREA" then "input->" ++ d
    else if tag == "SELECT" then "change->" ++ d
    else if tag == "DETAILS" then "toggle->" ++ d
    else "click->" ++ d

/-- `getTriggerGuard`: extract the key and modifier filters captured by the
listener for `keydown` / `keyup` descriptors. Returns `none` when the source
would throw (splitting an `undefined` segment on a plus-form descriptor with
no dot). -/
def triggerGuardParams (event : String) : Option (Option String × Option String) :=
  if jsStartsWith event "keydown" || jsStartsWith event "keyup" then
    if strContainsSub event "+" then
      match (splitDot event).get? 1 with
      | none => none
      | some seg =>
        some (((splitPlus event).get? 1).map String.toLower,
              ((splitPlus seg).get? 0).map String.toLower)
    else
      some (((splitDot event).get? 1).map String.toLower, none)
  else some (none, none)

/-- The `ElementEventHandler` constructor. Returns `none` where the source
throws (`camelCase(undefined)` when the target part has no method segment, or
the guard computation above). Re-registration under an existing `tokenKey`
logs and leaves the element unchanged; the map key is the kebab-cased
`token.method` pair, not the full descriptor. -/
def new (s : ConnState) (e : Nat) (descriptor : String) : Option ConnState :=
  let d := completeDescriptor s e descriptor
  let parts := splitArrowHash d
  let eventDescriptor := (parts.get? 0).getD ""
  let tokenPart := (parts.get? 1).getD ""
  let idPart := parts.get? 2
  let evOpts : String × List (String × Bool) :=
    if strContainsSub eventDescriptor "[" then
      let segs := splitBracket (removeFirstChar eventDescriptor ']')
      let od := (segs.get? 1).getD ""
      (((segs.get? 0).getD ""),
        (splitSpace od).foldl
          (fun acc option =>
            if jsStartsWith option "!" then
              mapSet acc (String.mk option.data.tail) false
            else mapSet acc option true)
          [])
    else (eventDescriptor, [])
  let tokSegs := splitDot tokenPart
  let aspectToken := (tokSegs.get? 0).getD ""
  let aspectMethod0 := tokSegs.get? 1
  let tokenKey := kebabCase (aspectToken ++ "." ++ (aspectMethod0.getD "undefined"))
  match aspectMethod0 with
  | none => none
  | some m =>
    let aspectMethod := camelCase m
    let event := ((splitDot evOpts.1).get? 0).getD ""
    if (mapGet (getEl s e).tm_handler tokenKey).isSome then some s
    else
      match triggerGuardParams evOpts.1 with
      | none => none
      | some g =>
        let h : Handler :=
          ⟨event, evOpts.2, aspectToken, aspectMethod, tokenKey, idPart, g.1, g.2⟩
        some (setEl s e { getEl s e with tm_handler := mapSet (getEl s e).tm_handler tokenKey h })

/-- The keyboard filter installed by `getTriggerGuard`: `true` means the
listener early-returns. -/
def triggerGuard (h : Handler) (ev : EvInfo) : Bool :=
  (if (h.guardKey.getD "") != "" then ev.key.toLower != (h.guardKey.getD "") else false) ||
  (if (h.guardModifier.getD "") != "" then
     !(ev.modifiers.contains (h.guardModifier.getD "")) else false)

/-- `typecast`: `JSON.parse` with the raw string as the caught fallback. -/
def typecast (v : String) : JVal :=
  match jsonParse v with
  | some j => j
  | none => JVal.str v

/-- The owning-element resolution performed at the top of the listener: by
document id when the descriptor carried a truthy `#hostId`, otherwise by
`closest` over the connect attribute. -/
def resolveTargetEl (s : ConnState) (e : Nat) (h : Handler) : Option Nat :=
  if (h.hostId.getD "") != "" then getElementById s (h.hostId.getD "")
  else closestConnectToken s e h.aspectToken

/-- The `stim_tm_handler` map key the constructor computes for a descriptor
on a given element: the kebab-cased `token.method` pair (the event part and
the host id are not part of the key). -/
def tokenKeyOf (s : ConnState) (e : Nat) (descriptor : String) : String :=
  let tokenPart := ((splitArrowHash (completeDescriptor s e descriptor)).get? 1).getD ""
  kebabCase ((((splitDot tokenPart).get? 0).getD "") ++ "." ++
    (((splitDot tokenPart).get? 1).getD "undefined"))

/-- The method segment of a descriptor's target part (when absent the
constructor throws in `camelCase`). -/
def methodSegOf (s : ConnState) (e : Nat) (descriptor : String) : Option String :=
  (splitDot (((splitArrowHash (completeDescriptor s e descriptor)).get? 1).getD "")).get? 1

/-- The parameter-gathering loop at the bottom of the listener: the typecast
bulk parameter attribute `data-<token>.<method>` (or `\x7b\x7d` when absent)
is the assignment base, and each `data-<token>.<method>.<param>` attribute is
typecast and assigned onto it. The source is an ES module, hence strict
mode: `params[attrKey] = ...` throws a `TypeError` when the base is `null`
(always) or another primitive (string, number, boolean), modelled as
`Except.error`. Assignment on an array base succeeds in JavaScript, creating
a string-keyed expando property that `JVal` cannot carry; the model keeps
the array unchanged, and no theorem reads parameters off an array base. -/
def gatherParams (s : ConnState) (e : Nat) (h : Handler) : Except String JVal :=
  let bulkName := attributePrefix ++ h.tokenKey
  let base :=
    match getAttrVal s e bulkName with
    | some v => typecast v
    | none => JVal.obj []
  (getEl s e).attrs.foldlM
    (fun p kv =>
      if jsStartsWith kv.1 (bulkName ++ ".") then
        let attrKey := camelCase (removeFirstSub kv.1 (bulkName ++ "."))
        match p with
        | JVal.obj fs => Except.ok (JVal.obj (mapSet fs attrKey (typecast kv.2)))
        | JVal.arr xs => Except.ok (JVal.arr xs)
        | _ => Except.error "TypeError: cannot set property on a primitive or null"
      else Except.ok p)
    base

/-- The listener closure of `ElementEventHandler`: resolves the owning
element by id when the descriptor carried a truthy `#hostId`, otherwise by
`closest` over the CONNECT attribute (word-match selector list); looks the
instance up by token; silently no-ops (`Except.ok none`) when the guard
filters the event, no instance is found, or the instance's class does not
define the method; otherwise gathers parameters — which can throw
(`Except.error`, see `gatherParams`) — and reports the call. -/
def listener (reg : Registry) (s : ConnState) (e : Nat) (h : Handler) (ev : EvInfo) :
    Except String (Option DispatchCall) :=
  let aspect := (resolveTargetEl s e h).bind (fun j => mapGet (getEl s j).tm_host h.aspectToken)
  if triggerGuard h ev then Except.ok none
  else
    match aspect with
    | none => Except.ok none
    | some j =>
      match s.insts.get? j with
      | none => Except.ok none   -- unreachable for well-formed states
      | some a =>
        if !((methodsOf reg a.token).contains h.aspectMethod) then Except.ok none
        else
          match gatherParams s e h with
          | Except.error m => Except.error m
          | Except.ok params =>
            Except.ok (some ⟨j, h.aspectMethod,
              (mapGet h.listenerOptions "prevent").getD false,
              (mapGet h.listenerOptions "stop").getD false, params⟩)

end ElementEventHandler

namespace Connector

/-- `Connector.filterHostTokens`: non-empty entries with no dot. -/
def filterHostTokens (tokens : List String) : List String :=
  tokens.filter (fun i => i != "" && !(strContainsSub i "."))

/-- `Connector.filterChildTokens`: entries containing a dot. -/
def filterChildTokens (tokens : List String) : List String :=
  tokens.filter (fun i => strContainsSub i ".")

/-- The scope string built by `setHostScopeAttribute`: a reduce over the
host-map keys starting from a single space, appending `token ⬝ space`. -/
def scopeStringOf (keys : List String) : String :=
  keys.foldl (fun acc token => acc ++ token ++ " ") " "

/-- `Connector.setHostScopeAttribute` (called everywhere with the default
`oldVal = ''`). -/
def setHostScopeAttribute (s : ConnState) (e : Nat) (oldVal : String) : ConnState :=
  let scopeString := scopeStringOf ((getEl s e).tm_host.map Prod.fst)
  if oldVal == scopeString then s
  else setEl s e { getEl s e with attrs := mapSet (getEl s e).attrs scopeAttr scopeString }

/-- `Connector.addOrphan`: record the waiting descriptor in the forward index
`orphanHosts` (hostId to element to descriptor set) and the reverse index
`orphans` (element to hostId set). -/
def addOrphan (s : ConnState) (e : Nat) (hostId : String) (token : String) : ConnState :=
  let oh0 := if mapHas s.orphanHosts hostId then s.orphanHosts else mapSet s.orphanHosts hostId []
  let m0 := (mapGet oh0 hostId).getD []
  let m1 := if mapHas m0 e then m0 else mapSet m0 e []
  let m2 := mapSet m1 e (setAdd ((mapGet m1 e).getD []) token)
  let oh := mapSet oh0 hostId m2
  let or0 := if mapHas s.orphans e then s.orphans else mapSet s.orphans e []
  let or1 := mapSet or0 e (setAdd ((mapGet or0 e).getD []) hostId)
  { s with orphanHosts := oh, orphans := or1 }

/-- `Connector.removeOrphan`. The empty string stands for an omitted default
argument. The source dereferences `orphanHosts.get(hostId).size`,
`orphanHosts.get(hostId).get(el).size` and `orphans.get(el).size` without
optional chaining; on states where those entries are absent the JavaScript
throws, modelled by `none`. -/
def removeOrphan (s : ConnState) (e : Nat) (hostId : String) (token : String) :
    Option ConnState :=
  if hostId == "" then
    let hostIds := (mapGet s.orphans e).getD []
    match hostIds.foldlM
        (fun (oh : List (String × List (Nat × List String))) h =>
          match mapGet oh h with
          | none => none
          | some m =>
            let m2 := mapDelete m e
            let oh2 := mapSet oh h m2
            some (if m2.isEmpty then mapDelete oh2 h else oh2))
        s.orphanHosts with
    | none => none
    | some oh => some { s with orphanHosts := oh, orphans := mapDelete s.orphans e }
  else
    if !(mapHas s.orphanHosts hostId) then some s
    else
      let m := (mapGet s.orphanHosts hostId).getD []
      let afterOH : Option (List (String × List (Nat × List String))) :=
        if token != "" then
          let m2 :=
            match mapGet m e with
            | some set => mapSet m e (setDelete set token)
            | none => m
          match mapGet m2 e with
          | none => none
          | some set2 =>
            if set2.isEmpty then
              let m3 := mapDelete m2 e
              let oh := mapSet s.orphanHosts hostId m3
              some (if m3.isEmpty then mapDelete oh hostId else oh)
            else some (mapSet s.orphanHosts hostId m2)
        else
          let m2 := mapDelete m e
          let oh := mapSet s.orphanHosts hostId m2
          some (if m2.isEmpty then mapDelete oh hostId else oh)
      match afterOH with
      | none => none
      | some oh =>
        let or0 :=
          match mapGet s.orphans e with
          | some set => mapSet s.orphans e (setDelete set hostId)
          | none => s.orphans
        match mapGet or0 e with
        | none => none
        | some set2 =>
          some { s with
                 orphanHosts := oh
                 orphans := if set2.isEmpty then mapDelete or0 e else or0 }

/-- The `Aspect` base-class constructor (`src/Aspect.js`) as invoked by
`injectAspect`: allocate the instance with its empty target-type sets, enter
it into the host's `stim_tm_host` map, and invoke `initialized()`. The
property initialization it also performs (`attributeSyncer.initializeAttributes`)
is modelled by the `AspectAttributeSyncer` section and carries no
Connector-level state. -/
def aspectConstruct (s : ConnState) (e : Nat) (token : String) (cls : AspectClass) :
    ConnState :=
  let j := s.insts.length
  let a : AspectInst := ⟨token, e, false, cls.elements.map (fun k => (k, []))⟩
  let s := { s with insts := s.insts ++ [a] }
  let s := setEl s e { getEl s e with tm_host := mapSet (getEl s e).tm_host token j }
  emit s (.initialized j)

mutual

/-- `Connector.injectAspect`: warn and skip for an unregistered token, no-op
when the host already has the token, otherwise instantiate all injected
dependency tokens first (depth-first) and then construct the instance. The
fuel models the JavaScript call stack; exhaustion (`none`) corresponds to the
unbounded recursion a dependency cycle would cause. -/
def injectAspect (reg : Registry) : Nat → ConnState → Nat → String → Option ConnState
  | 0, _, _, _ => none
  | Nat.succ fuel, s, e, token =>
    match mapGet reg.aspectRegister token with
    | none => some (emit s (.warnMissing token))
    | some cls =>
      if mapHas (getEl s e).tm_host token then some s
      else
        match injectList reg fuel s e cls.aspects with
        | none => none
        | some s2 => some (aspectConstruct s2 e token cls)

def injectList (reg : Registry) : Nat → ConnState → Nat → List String → Option ConnState
  | _, s, _, [] => some s
  | fuel, s, e, t :: ts =>
    match injectAspect reg fuel s e t with
    | none => none
    | some s2 => injectList reg fuel s2 e ts

end

/-- The orphan-resolution pass inside `hostTokensAdded`: for every element
waiting on this host id, re-add the waiting descriptors that mention the
newly connected token. -/
def resolveOrphansFor (childAdd : ConnState → Nat → List String → ConnState)
    (s : ConnState) (hostIdStr : String) (tok : String) : ConnState :=
  match mapGet s.orphanHosts hostIdStr with
  | none => s
  | some m =>
    m.foldl
      (fun s2 p =>
        childAdd s2 p.1 (p.2.filter (fun d => strContainsSub d (tok ++ "."))))
      s

/-- `Connector.childTokensAdded`: for each descriptor, disconnect a stale
connected record under the same descriptor, construct a fresh
`ElementConnection`, register it as an orphan when it names a host id that
did not resolve, and connect it otherwise. -/
def childTokensAdded (reg : Registry) (s0 : ConnState) (e : Nat) (tokens : List String) :
    ConnState :=
  tokens.foldl
    (fun s d =>
      let s :=
        match mapGet (getEl s e).tm_child d with
        | some c0 =>
          if c0.connected then
            let p := ElementConnection.disconnect reg s c0
            storeConn p.2 e d p.1
          else s
        | none => s
      let p := ElementConnection.new s e d
      let c := p.1
      let s := p.2
      if c.aspect.isNone && connTruthyHostId c then
        addOrphan s e (c.hostId.getD "") d
      else
        let q := ElementConnection.connect reg s c
        if c.type.isSome then storeConn q.2 e d q.1 else q.2)
    s0

/-- `Connector.childTokensRemoved`: disconnect and delete each listed
descriptor's record; the source then reads `connection.hostId` without a
guard, so a descriptor with no record throws (`none`). -/
def childTokensRemoved (reg : Registry) (s0 : ConnState) (e : Nat) (tokens : List String) :
    Option ConnState :=
  tokens.foldlM
    (fun s d =>
      let c0 := mapGet (getEl s e).tm_child d
      let s :=
        match c0 with
        | some c =>
          let p := ElementConnection.disconnect reg s c
          storeConn p.2 e d p.1
        | none => s
      let s := setEl s e { getEl s e with tm_child := mapDelete (getEl s e).tm_child d }
      match c0 with
      | none => none
      | some c =>
        if connTruthyHostId c then removeOrphan s e (c.hostId.getD "") d
        else some s)
    s0

/-- Descendants of an element (the elements whose ancestor chain passes
through it), standing in for `el.querySelectorAll` subtree scans; the store
is kept in document preorder. -/
def descendantsOf (s : ConnState) (e : Nat) : List Nat :=
  (List.range s.doc.length).filter (fun d => d != e && (ancestorChain s d).contains e)

/-- The descendant re-scan inside `hostTokensAdded` (only on attribute-driven
adds): re-add child descriptors mentioning the token on descendants whose
nearest scope-marked ancestor for the token is this host. -/
def connectDescendantsScan (reg : Registry) (s0 : ConnState) (e : Nat) (tok : String) :
    ConnState :=
  (descendantsOf s0 e).foldl
    (fun s child =>
      match getAttrVal s child connectAttr with
      | some v =>
        if strContainsSub v (tok ++ ".") then
          if closestScope s child tok == some e then
            childTokensAdded reg s child
              ((splitSpace v).filter (fun d => strContainsSub d (tok ++ ".")))
          else s
        else s
      | none => s)
    s0

/-- One iteration of the connect loop in `hostTokensAdded`, for the aspect at
instance index `j`: invoke `connected()`, mark connected, register in the
global connected set, resolve orphans waiting on this element's id, and
optionally re-scan descendants. -/
def connectAspectStep (reg : Registry) (s : ConnState) (e : Nat) (j : Nat)
    (connectDescendants : Bool) : ConnState :=
  match s.insts.get? j with
  | none => s
  | some a =>
    if a.isConnected then s
    else
      let s := emit s (.connected j)
      let s := { s with insts := s.insts.set j { a with isConnected := true },
                        connectedAspects := setAdd s.connectedAspects j }
      let s :=
        if (getEl s e).idStr != "" then
          resolveOrphansFor (childTokensAdded reg) s (getEl s e).idStr a.token
        else s
      if connectDescendants then connectDescendantsScan reg s e a.token else s

/-- `Connector.hostTokensAdded`: early return on an empty token list;
otherwise inject every token, rewrite the scope-marker attribute, and run the
connect loop over the host map. (The `aspectObserver.observe` call registers
an external observer and carries no modelled state.) -/
def hostTokensAdded (reg : Registry) (fuel : Nat) (s : ConnState) (e : Nat)
    (tokens : List String) (connectDescendants : Bool) : Option ConnState :=
  if tokens.isEmpty then some s
  else
    match injectList reg fuel s e tokens with
    | none => none
    | some s1 =>
      let s2 := setHostScopeAttribute s1 e ""
      some (((getEl s2 e).tm_host).foldl
        (fun s3 p => connectAspectStep reg s3 e p.2 connectDescendants) s2)

/-- Processing of one element's `stim_tm_child` entry inside
`disconnectAspect`: skip records owned by other aspects; re-register remote
records of still-attached elements as orphans; disconnect and delete. -/
def disconnectChildEntry (reg : Registry) (i : Nat) (s : ConnState) (el : Nat) (d : String) :
    ConnState :=
  match mapGet (getEl s el).tm_child d with
  | none => s
  | some c =>
    if c.aspect != some i then s
    else
      let s :=
        if connTruthyHostId c && (getEl s c.el).attached then
          addOrphan s el (c.hostId.getD "") d
        else s
      let s := (ElementConnection.disconnect reg s c).2
      setEl s el { getEl s el with tm_child := mapDelete (getEl s el).tm_child d }

/-- Iterate `disconnectChildEntry` over a snapshot of one element's child
descriptor keys (live `Map.forEach` deletes only already-visited keys, so the
snapshot is faithful). -/
def disconnectAspectElems (reg : Registry) (i : Nat) (s : ConnState) (el : Nat) : ConnState :=
  ((getEl s el).tm_child.map Prod.fst).foldl
    (fun s2 d => disconnectChildEntry reg i s2 el d) s

/-- `Connector.disconnectAspect`: evict every target membership of the
aspect (converting remote links on attached elements back to orphans), then
invoke `disconnected()`, clear the connected flag, and drop it from the
global connected set. `none` models `disconnectAspect(undefined)`, which
throws on its first property access. -/
def disconnectAspect (reg : Registry) (s : ConnState) (i : Nat) : Option ConnState :=
  match s.insts.get? i with
  | none => none
  | some a =>
    let s :=
      (a.elements.map Prod.fst).foldl
        (fun s2 k =>
          let set :=
            match s2.insts.get? i with
            | some a2 => (mapGet a2.elements k).getD []
            | none => []
          set.foldl (fun s3 el => disconnectAspectElems reg i s3 el) s2)
        s
    let s := emit s (.disconnected i)
    some { s with
           insts :=
             match s.insts.get? i with
             | some a2 => s.insts.set i { a2 with isConnected := false }
             | none => s.insts,
           connectedAspects := setDelete s.connectedAspects i }

/-- `Connector.hostTokensRemoved`: disconnect and delete the instance of each
removed token (an absent instance makes `disconnectAspect` throw), then
rewrite the scope-marker attribute. -/
def hostTokensRemoved (reg : Registry) (s0 : ConnState) (e : Nat) (tokens : List String) :
    Option ConnState :=
  match tokens.foldlM
      (fun s t =>
        match mapGet (getEl s e).tm_host t with
        | none => none
        | some j =>
          match disconnectAspect reg s j with
          | none => none
          | some s2 =>
            some (setEl s2 e { getEl s2 e with tm_host := mapDelete (getEl s2 e).tm_host t }))
      s0 with
  | none => none
  | some s1 => some (setHostScopeAttribute s1 e "")

/-- `Connector.hostElAdded`: gather the host tokens from the connect
attribute, append a custom-tag token when registered, and run
`hostTokensAdded` (initial-scan mode, no descendant re-scan). -/
def hostElAdded (reg : Registry) (fuel : Nat) (s : ConnState) (e : Nat) : Option ConnState :=
  let tokens :=
    match getAttrVal s e connectAttr with
    | none => []
    | some v => filterHostTokens (splitSpace v)
  let tokens :=
    match mapGet reg.customTags (getEl s e).tagName with
    | some t => tokens ++ [t]
    | none => tokens
  hostTokensAdded reg fuel s e tokens false

/-- `Connector.hostElRemoved`: disconnect every hosted aspect; the host map
entries and the instances themselves survive. -/
def hostElRemoved (reg : Registry) (s : ConnState) (e : Nat) : Option ConnState :=
  ((getEl s e).tm_host).foldlM (fun s2 p => disconnectAspect reg s2 p.2) s

/-- `Connector.childElAdded`. -/
def childElAdded (reg : Registry) (s : ConnState) (e : Nat) : ConnState :=
  let tokens :=
    match getAttrVal s e connectAttr with
    | none => []
    | some v => filterChildTokens (splitSpace v)
  childTokensAdded reg s e tokens

/-- `Connector.childElRemoved`: disconnect every child connection (records
stay in the map) and drop the element from the orphan indices. -/
def childElRemoved (reg : Registry) (s : ConnState) (e : Nat) : Option ConnState :=
  let s1 :=
    ((getEl s e).tm_child.map Prod.fst).foldl
      (fun s2 d =>
        match mapGet (getEl s2 e).tm_child d with
        | some c =>
          let p := ElementConnection.disconnect reg s2 c
          storeConn p.2 e d p.1
        | none => s2)
      s
  removeOrphan s1 e "" ""

/-- `Connector.handlerElAdded`: construct an `ElementEventHandler` per
space-separated descriptor, then attach the listener of every handler in the
map (attachment is recorded as a trace event; the native listener itself is
external). `none` models the unguarded `getAttribute(...).split` on an absent
attribute, and constructor throws. -/
def handlerElAdded (s : ConnState) (e : Nat) : Option ConnState :=
  match getAttrVal s e handlerAttr with
  | none => none
  | some v =>
    match (splitSpace v).foldlM (fun s2 d => ElementEventHandler.new s2 e d) s with
    | none => none
    | some s2 =>
      some (((getEl s2 e).tm_handler).foldl
        (fun s3 p => emit s3 (.listenerAdded e p.1)) s2)

/-- `Connector.handlerElRemoved`: detach every handler's listener and null
the map. -/
def handlerElRemoved (s : ConnState) (e : Nat) : ConnState :=
  let s1 :=
    ((getEl s e).tm_handler).foldl (fun s2 p => emit s2 (.listenerRemoved e p.1)) s
  setEl s1 e { getEl s1 e with tm_handler := [] }

/-- `Connector.connectNode` restricted to an element with no descendants (its
subtree queries return nothing). The selector-callback loop invokes only
external callbacks and is referenced by no claim. -/
def connectNodeSelf (reg : Registry) (fuel : Nat) (s : ConnState) (e : Nat) :
    Option ConnState :=
  let hasConnect := (getAttrVal s e connectAttr).isSome
  let isCustom := jsStartsWith (getEl s e).tagName.toLower customElementPrefix
  match (if hasConnect || isCustom then hostElAdded reg fuel s e else some s) with
  | none => none
  | some s1 =>
    let s2 := if (getAttrVal s1 e connectAttr).isSome then childElAdded reg s1 e else s1
    if (getAttrVal s2 e handlerAttr).isSome then handlerElAdded s2 e else some s2

/-- `Connector.disconnectNode` restricted to an element with no descendants:
handlers first, then child connections, then hosted aspects. -/
def disconnectNodeSelf (reg : Registry) (s : ConnState) (e : Nat) : Option ConnState :=
  let s1 := if (getAttrVal s e handlerAttr).isSome then handlerElRemoved s e else s
  match (if (getAttrVal s1 e connectAttr).isSome then childElRemoved reg s1 e else some s1) with
  | none => none
  | some s2 =>
    if (getAttrVal s2 e connectAttr).isSome then hostElRemoved reg s2 e else some s2

/-- Removal of a leaf host element from the document: the childList observer
delivers its record after the DOM change, so the element is already detached
when `disconnectNode` runs. -/
def removeAndDisconnectSelf (reg : Registry) (s : ConnState) (e : Nat) : Option ConnState :=
  disconnectNodeSelf reg (setEl s e { getEl s e with attached := false }) e

/-- Re-insertion of a leaf host element into the document. -/
def reinsertAndConnectSelf (reg : Registry) (fuel : Nat) (s : ConnState) (e : Nat) :
    Option ConnState :=
  connectNodeSelf reg fuel (setEl s e { getEl s e with attached := true }) e

/-- The connect-attribute branch of `Connector.attributeObserver` for one
mutation record: diff the old and new space-separated lists, then process
removed child descriptors, removed host tokens, added host tokens (with the
descendant re-scan), and added child descriptors, in that order. `oldVal =
none` models a record with `oldValue === null`, whose unguarded `split`
throws; so does reading the attribute after its removal. -/
def attributeObserverStep (reg : Registry) (fuel : Nat) (s : ConnState) (e : Nat)
    (attrName : String) (oldVal : Option String) : Option ConnState :=
  if attrName == connectAttr then
    match oldVal, getAttrVal s e connectAttr with
    | some ov, some nv =>
      let oldIds := splitSpace ov
      let newIds := splitSpace nv
      let removed := oldIds.filter (fun i => !(newIds.contains i))
      let added := newIds.filter (fun i => !(oldIds.contains i))
      (childTokensRemoved reg s e (filterChildTokens removed)).bind fun s1 =>
        (hostTokensRemoved reg s1 e (filterHostTokens removed)).bind fun s2 =>
          (hostTokensAdded reg fuel s2 e (filterHostTokens added) true).map fun s3 =>
            childTokensAdded reg s3 e (filterChildTokens added)
    | _, _ => none
  else if attrName == handlerAttr then
    handlerElAdded (handlerElRemoved s e) e
  else some s

end Connector

/-!
Statement-level predicates about protocol steps, and the concrete states
used by witnesses and counterexamples.
-/

/-- Is this event one of the three lifecycle callbacks? -/
def isLifeEvent : Event → Bool
  | .initialized _ => true
  | .connected _ => true
  | .disconnected _ => true
  | _ => false

/-- Is this event a lifecycle callback of instance `i`? -/
def isLifeFor (i : Nat) : Event → Bool
  | .initialized j => j == i
  | .connected j => j == i
  | .disconnected j => j == i
  | _ => false

/-- The lifecycle events of instance `i` in a trace fragment, in order. -/
def lifeFilter (i : Nat) (l : List Event) : List Event :=
  l.filter (isLifeFor i)

/-- The events an operation appended to the trace. -/
def traceDelta (s s' : ConnState) : List Event :=
  s'.trace.drop s.trace.length

/-- The element fields no child-level operation may change: everything except
the `stim_tm_child` / `stim_tm_handler` registries. -/
def elemCore (el : Elem) :
    String × String × Option Nat × Bool × List (String × String) × List (String × Nat) :=
  (el.tagName, el.idStr, el.parent, el.attached, el.attrs, el.tm_host)

/-- The document skeleton (length and element cores) is unchanged. -/
def DocCore (s s' : ConnState) : Prop :=
  s'.doc.length = s.doc.length ∧ ∀ x, elemCore (getEl s' x) = elemCore (getEl s x)

/-- The identity-relevant part of an optional instance. -/
def instCore (o : Option AspectInst) : Option (String × Nat × Bool) :=
  o.map (fun a => (a.token, a.host, a.isConnected))

/-- Instance identities and lifecycle flags are unchanged. -/
def InstsCore (s s' : ConnState) : Prop :=
  s'.insts.length = s.insts.length ∧ ∀ j, instCore (s'.insts.get? j) = instCore (s.insts.get? j)

/-- A child-level transformation: target/handler bookkeeping that may touch
`stim_tm_child` / `stim_tm_handler`, target sets, orphan indices and the
trace, but neither the document skeleton, nor instance identity or lifecycle
flags, and appends no lifecycle event. -/
def ChildLevel (s s' : ConnState) : Prop :=
  DocCore s s' ∧ InstsCore s s' ∧
    ∃ Δ, s'.trace = s.trace ++ Δ ∧ ∀ ev ∈ Δ, isLifeEvent ev = false

/-- Concrete states for the action-dispatch counterexample: token `a` injects
token `b`, so the host's connect attribute names only `a` while its
scope-marker attribute is `" b a "`; a button below carries a handler
descriptor for `b.run`. -/
def c7Reg : Registry :=
  ⟨[("a", ⟨["b"], [], ["go"]⟩), ("b", ⟨[], [], ["run"]⟩)], []⟩

def c7Host : Elem :=
  ⟨"DIV", "", none, true, [("data-connect", "a"), ("data-scope", " b a ")],
   [("b", 0), ("a", 1)], [], []⟩

def c7Btn : Elem :=
  ⟨"BUTTON", "", some 0, true, [("data-handler", "click->b.run")], [], [], []⟩

def c7Base : ConnState :=
  ⟨[c7Host, c7Btn], [⟨"b", 0, true, []⟩, ⟨"a", 0, true, []⟩], [0, 1], [], [], []⟩

def c7Handler : Handler :=
  ⟨"click", [], "b", "run", "b.run", none, none, none⟩

/-- A handler for token `a` on the same button, used to exercise the
successful-dispatch case of the amended resolution theorem. -/
def c7GoHandler : Handler :=
  ⟨"click", [], "a", "go", "a.go", none, none, none⟩

def c7State : ConnState :=
  ⟨[c7Host,
    ⟨"BUTTON", "", some 0, true, [("data-handler", "click->b.run")], [], [],
     [("b.run", c7Handler)]⟩],
   [⟨"b", 0, true, []⟩, ⟨"a", 0, true, []⟩], [0, 1], [], [],
   [.listenerAdded 1 "b.run"]⟩

/-- A host carrying `b` in its connect attribute whose instance is currently
disconnected (flag cleared, absent from the connected set): the listener's
connectedness check is commented out in the source, so dispatch proceeds. -/
def c7DiscHost : Elem :=
  ⟨"DIV", "", none, true, [("data-connect", "b")], [("b", 0)], [], []⟩

def c7DiscState : ConnState :=
  ⟨[c7DiscHost, ⟨"BUTTON", "", some 0, true, [], [], [], []⟩],
   [⟨"b", 0, false, []⟩], [], [], [], []⟩

/-- A button whose bulk parameter attribute `data-b.run` decodes to JSON
`null` while a per-parameter attribute `data-b.run.x` is also present: the
listener's `params[attrKey] = ...` assignment throws. -/
def c7ThrowState : ConnState :=
  ⟨[c7DiscHost,
    ⟨"BUTTON", "", some 0, true, [("data-b.run", "null"), ("data-b.run.x", "1")], [], [], []⟩],
   [⟨"b", 0, true, []⟩], [0], [], [], []⟩

/-- Concrete states for the action-binding keying counterexample. -/
def c9El : Elem :=
  ⟨"DIV", "", none, true, [], [], [], []⟩

def c9Base : ConnState :=
  ⟨[c9El], [], [], [], [], []⟩

def c9Click : Handler :=
  ⟨"click", [], "c", "foo", "c.foo", none, none, none⟩

def c9S1 : ConnState :=
  ⟨[⟨"DIV", "", none, true, [], [], [], [("c.foo", c9Click)]⟩], [], [], [], [], []⟩

/-- Concrete inputs for the bulk-attribute JSON failure counterexample. -/
def c8Decl : List (String × JVal) :=
  [("config", JVal.obj []), ("active", JVal.bool false)]

def c8St : SyncSt :=
  ⟨[("data-c", "\x7b")], [], []⟩

/-- Concrete states for the attribute-differential witness: the connect
attribute of element 0 just changed from `"a b.x"` to `"b.x c"`. -/
def c5Reg : Registry :=
  ⟨[("a", ⟨[], [], []⟩), ("c", ⟨[], [], []⟩)], []⟩

def c5Conn : Conn :=
  ⟨0, some "b", some "x", none, none, false⟩

def c5El : Elem :=
  ⟨"DIV", "", none, true, [("data-connect", "b.x c"), ("data-scope", " a ")],
   [("a", 0)], [("b.x", c5Conn)], []⟩

def c5State : ConnState :=
  ⟨[c5El], [⟨"a", 0, true, []⟩], [0], [], [], []⟩

/-- Concrete states for the scope-format and nearest-ancestor witness: an
outer host and a nested inner host both declaring token `dd`, with a target
element inside the inner host. -/
def c6Outer : Elem :=
  ⟨"DIV", "", none, true, [("data-connect", "dd"), ("data-scope", " dd ")],
   [("dd", 0)], [], []⟩

def c6Inner : Elem :=
  ⟨"DIV", "", some 0, true, [("data-connect", "dd"), ("data-scope", " dd ")],
   [("dd", 1)], [], []⟩

def c6Target : Elem :=
  ⟨"SPAN", "", some 1, true, [("data-connect", "dd.item")], [], [], []⟩

def c6State : ConnState :=
  ⟨[c6Outer, c6Inner, c6Target], [⟨"dd", 0, true, []⟩, ⟨"dd", 1, true, []⟩],
   [0, 1], [], [], []⟩

/-- Concrete inputs for the property-initialization precedence witness: the
key `size` has an individual attribute, the key `mode` only a bulk-JSON
entry and an injected override. -/
def c4Decl : List (String × JVal) :=
  [("size", JVal.num 1), ("mode", JVal.str "d")]

def c4Args : List (String × JVal) :=
  [("mode", JVal.str "arg"), ("size", JVal.num 7)]

def c4St : SyncSt :=
  ⟨[("data-t.size", "10"), ("data-t", "\x7b\"mode\":\"bulk\"\x7d")], [], []⟩

/-- Registry for the remove/reinsert witness: one token `t` with no
dependencies, no target types and no methods. -/
def c1Reg : Registry :=
  ⟨[("t", ⟨[], [], []⟩)], []⟩

/-- Registry for the orphan-lifecycle theorem: one token with a single
target type `ty` and an abstract method list. -/
def c2Reg (tok ty : String) (ms : List String) : Registry :=
  ⟨[(tok, ⟨[], [ty], ms⟩)], []⟩

/-- Start of the orphan lifecycle: a target element (0) whose descriptor `d`
names remote host id `h`, and the future host element (1), not yet in the
document. -/
def c2Start (d h : String) : ConnState :=
  ⟨[⟨"SPAN", "", none, true, [("data-connect", d)], [], [], []⟩,
    ⟨"DIV", h, none, false, [], [], [], []⟩],
   [], [], [], [], []⟩

/-- After `childTokensAdded` with no matching host: the unresolved connection
record is stored and the element is indexed as an orphan of `h`. -/
def c2Orphaned (d tok ty h : String) : ConnState :=
  ⟨[⟨"SPAN", "", none, true, [("data-connect", d)], [],
     [(d, ⟨0, some tok, some ty, some h, none, false⟩)], []⟩,
    ⟨"DIV", h, none, false, [], [], [], []⟩],
   [], [], [(h, [(0, [d])])], [(0, [h])], []⟩

/-- The orphaned state with the host element now attached to the document
(the moment before its tokens are processed). -/
def c2Ready (d tok ty h : String) : ConnState :=
  ⟨[⟨"SPAN", "", none, true, [("data-connect", d)], [],
     [(d, ⟨0, some tok, some ty, some h, none, false⟩)], []⟩,
    ⟨"DIV", h, none, true, [], [], [], []⟩],
   [], [], [(h, [(0, [d])])], [(0, [h])], []⟩

/-- After `hostTokensAdded` on the host: instance 0 exists and is connected,
and the orphan was resolved — the target's record now points at instance 0,
is connected, and the element sits in the instance's `ty` target set. -/
def c2Connected (d tok ty h : String) : ConnState :=
  ⟨[⟨"SPAN", "", none, true, [("data-connect", d)], [],
     [(d, ⟨0, some tok, some ty, some h, some 0, true⟩)], []⟩,
    ⟨"DIV", h, none, true, [("data-scope", Connector.scopeStringOf [tok])],
     [(tok, 0)], [], []⟩],
   [⟨tok, 1, true, [(ty, [0])]⟩], [0], [(h, [(0, [d])])], [(0, [h])],
   [Event.initialized 0, Event.connected 0, Event.elemConnected 0 ty 0]⟩

/-- The connected state with the host element detached again (the moment
before `hostElRemoved` runs on it). -/
def c2Detached (d tok ty h : String) : ConnState :=
  ⟨[⟨"SPAN", "", none, true, [("data-connect", d)], [],
     [(d, ⟨0, some tok, some ty, some h, some 0, true⟩)], []⟩,
    ⟨"DIV", h, none, false, [("data-scope", Connector.scopeStringOf [tok])],
     [(tok, 0)], [], []⟩],
   [⟨tok, 1, true, [(ty, [0])]⟩], [0], [(h, [(0, [d])])], [(0, [h])],
   [Event.initialized 0, Event.connected 0, Event.elemConnected 0 ty 0]⟩

/-- After `hostElRemoved`: the link is disconnected and deleted from the
target's registry, but the element is re-indexed as an orphan of `h`, not
discarded. -/
def c2Reorphaned (d tok ty h : String) : ConnState :=
  ⟨[⟨"SPAN", "", none, true, [("data-connect", d)], [], [], []⟩,
    ⟨"DIV", h, none, false, [("data-scope", Connector.scopeStringOf [tok])],
     [(tok, 0)], [], []⟩],
   [⟨tok, 1, false, [(ty, [])]⟩], [], [(h, [(0, [d])])], [(0, [h])],
   [Event.initialized 0, Event.connected 0, Event.elemConnected 0 ty 0,
    Event.elemDisconnected 0 ty 0, Event.disconnected 0]⟩

/-- States for the remove/reinsert lifecycle theorem: a lone host element
whose connect attribute `v` names the single token `tok`, hosting the
connected instance 0. -/
def c1El (tok v : String) : Elem :=
  ⟨"DIV", "", none, true, [("data-connect", v)], [(tok, 0)], [], []⟩

def c1State (tok v : String) : ConnState :=
  ⟨[c1El tok v], [⟨tok, 0, true, []⟩], [0], [], [], []⟩

/-- The state after the host element is removed from the document: the
instance and the host-map entry survive, only the connected flag is cleared
and `disconnected` has fired. -/
def c1Removed (tok v : String) : ConnState :=
  ⟨[⟨"DIV", "", none, false, [("data-connect", v)], [(tok, 0)], [], []⟩],
   [⟨tok, 0, false, []⟩], [], [], [], [Event.disconnected 0]⟩

/-- The state after the host element is re-inserted: the same instance 0 is
reconnected (scope attribute rewritten, `connected` fired, no new
`initialized`). -/
def c1Reinserted (tok v : String) : ConnState :=
  ⟨[⟨"DIV", "", none, true,
     [("data-connect", v), ("data-scope", Connector.scopeStringOf [tok])],
     [(tok, 0)], [], []⟩],
   [⟨tok, 0, true, []⟩], [0], [], [], [Event.disconnected 0, Event.connected 0]⟩

/-!
Lemmas about the association-list and string primitives.
-/

theorem mapGet_nil {κ α : Type} [BEq κ] (k : κ) : mapGet ([] : List (κ × α)) k = none := rfl

theorem mapGet_cons {κ α : Type} [BEq κ] (p : κ × α) (m : List (κ × α)) (k : κ) :
    mapGet (p :: m) k = if p.1 == k then some p.2 else mapGet m k := by
  by_cases h : (p.1 == k) = true <;> simp [mapGet, List.find?_cons, h]

theorem mapHas_eq_isSome {κ α : Type} [BEq κ] (m : List (κ × α)) (k : κ) :
    mapHas m k = (mapGet m k).isSome := by
  induction m with
  | nil => rfl
  | cons p m ih =>
    rw [mapGet_cons]
    by_cases h : (p.1 == k) = true
    · simp [mapHas, List.any_cons, h]
    · rw [Bool.not_eq_true] at h
      simp only [mapHas, List.any_cons, h, Bool.false_or, if_false]
      exact ih

theorem mapGet_append {κ α : Type} [BEq κ] (m₁ m₂ : List (κ × α)) (k : κ) :
    mapGet (m₁ ++ m₂) k =
      (match mapGet m₁ k with
       | some v => some v
       | none => mapGet m₂ k) := by
  induction m₁ with
  | nil => simp [mapGet_nil]
  | cons p m ih =>
    rw [List.cons_append, mapGet_cons, mapGet_cons]
    by_cases h : (p.1 == k) = true <;> simp [h, ih]

theorem mapGet_eq_some_mem {κ α : Type} [BEq κ] [LawfulBEq κ] {m : List (κ × α)} {k : κ}
    {v : α} (h : mapGet m k = some v) : (k, v) ∈ m := by
  induction m with
  | nil => simp [mapGet] at h
  | cons p m ih =>
    rw [mapGet_cons] at h
    split at h
    · next hp =>
      obtain ⟨k0, v0⟩ := p
      have hk : k0 = k := by simpa using hp
      have hv : v0 = v := by simpa using h
      subst hk; subst hv
      exact List.mem_cons_self _ _
    · exact List.mem_cons_of_mem _ (ih h)

theorem mapGet_mapOverwrite {κ α : Type} [BEq κ] [LawfulBEq κ] (m : List (κ × α)) (k : κ)
    (v : α) :
    mapGet (m.map (fun p => if p.1 == k then (k, v) else p)) k =
      if mapHas m k then some v else none := by
  induction m with
  | nil => rfl
  | cons p m ih =>
    by_cases h : (p.1 == k) = true
    · simp [mapHas, List.any_cons, h, mapGet_cons]
    · rw [Bool.not_eq_true] at h
      simp only [List.map_cons, h, mapGet_cons, mapHas, List.any_cons, Bool.false_or]
      simpa [h] using ih

theorem mapGet_mapOverwrite_ne {κ α : Type} [BEq κ] [LawfulBEq κ] (m : List (κ × α))
    (k k' : κ) (v : α) (h : k' ≠ k) :
    mapGet (m.map (fun p => if p.1 == k then (k, v) else p)) k' = mapGet m k' := by
  induction m with
  | nil => rfl
  | cons p m ih =>
    by_cases hp : (p.1 == k) = true
    · have hpk : p.1 = k := by simpa using hp
      have h1 : (k == k') = false := by
        simp only [beq_eq_false_iff_ne, ne_eq]
        exact fun hc => h hc.symm
      have h2 : (p.1 == k') = false := by
        simp only [beq_eq_false_iff_ne, ne_eq, hpk]
        exact fun hc => h hc.symm
      simp [mapGet_cons, hp, h1, h2, ih]
    · rw [Bool.not_eq_true] at hp
      simp only [List.map_cons, hp, if_false, mapGet_cons]
      by_cases hp' : (p.1 == k') = true <;> simp [hp', ih]

theorem mapGet_none_of_not_has {κ α : Type} [BEq κ] {m : List (κ × α)} {k : κ}
    (h : mapHas m k = false) : mapGet m k = none := by
  have heq := mapHas_eq_isSome m k
  rw [h] at heq
  cases hg : mapGet m k with
  | none => rfl
  | some w => rw [hg] at heq; simp at heq

theorem mapGet_mapSet_self {κ α : Type} [BEq κ] [LawfulBEq κ] (m : List (κ × α)) (k : κ)
    (v : α) : mapGet (mapSet m k v) k = some v := by
  unfold mapSet
  by_cases h : mapHas m k = true
  · simp [h, mapGet_mapOverwrite]
  · rw [Bool.not_eq_true] at h
    rw [h, if_neg (by simp), mapGet_append, mapGet_none_of_not_has h]
    simp [mapGet_cons]

theorem mapGet_mapSet_ne {κ α : Type} [BEq κ] [LawfulBEq κ] (m : List (κ × α)) (k k' : κ)
    (v : α) (h : k' ≠ k) : mapGet (mapSet m k v) k' = mapGet m k' := by
  unfold mapSet
  by_cases hh : mapHas m k = true
  · simp [hh, mapGet_mapOverwrite_ne m k k' v h]
  · rw [Bool.not_eq_true] at hh
    rw [hh, if_neg (by simp), mapGet_append]
    have h1 : (k == k') = false := by
      simp only [beq_eq_false_iff_ne, ne_eq]
      exact fun hc => h hc.symm
    cases hg : mapGet m k' <;> simp [hg, mapGet_cons, mapGet_nil, h1]

theorem mapGet_mapDelete_ne {κ α : Type} [BEq κ] [LawfulBEq κ] (m : List (κ × α)) (k k' : κ)
    (h : k' ≠ k) : mapGet (mapDelete m k) k' = mapGet m k' := by
  induction m with
  | nil => rfl
  | cons p m ih =>
    by_cases hp : (p.1 == k) = true
    · have hpk : p.1 = k := by simpa using hp
      have h2 : (p.1 == k') = false := by
        simp only [beq_eq_false_iff_ne, ne_eq, hpk]
        exact fun hc => h hc.symm
      have hne : (p.1 != k) = false := by simp [bne, hp]
      rw [mapDelete, List.filter_cons, hne, if_neg (by simp), mapGet_cons, h2,
        if_neg (by simp)]
      exact ih
    · rw [Bool.not_eq_true] at hp
      have hne : (p.1 != k) = true := by simp [bne, hp]
      rw [mapDelete, List.filter_cons, hne, if_pos rfl, mapGet_cons, mapGet_cons]
      by_cases hp' : (p.1 == k') = true
      · simp [hp']
      · rw [Bool.not_eq_true] at hp'
        simp only [hp', if_false]
        exact ih

theorem mapGet_mapDelete_self {κ α : Type} [BEq κ] [LawfulBEq κ] (m : List (κ × α)) (k : κ) :
    mapGet (mapDelete m k) k = none := by
  induction m with
  | nil => rfl
  | cons p m ih =>
    by_cases hp : (p.1 == k) = true
    · have hne : (p.1 != k) = false := by simp [bne, hp]
      rw [mapDelete, List.filter_cons, hne, if_neg (by simp)]
      exact ih
    · rw [Bool.not_eq_true] at hp
      have hne : (p.1 != k) = true := by simp [bne, hp]
      rw [mapDelete, List.filter_cons, hne, if_pos rfl, mapGet_cons, hp, if_neg (by simp)]
      exact ih

theorem listContainsSub_char (l : List Char) (c : Char) :
    listContainsSub l [c] = true ↔ c ∈ l := by
  induction l with
  | nil => simp [listContainsSub]
  | cons h t ih =>
    have hpre : listPre [c] (h :: t) = (c == h) := by simp [listPre]
    rw [show listContainsSub (h :: t) [c] =
          (listPre [c] (h :: t) || listContainsSub t [c]) from rfl, hpre]
    simp [List.mem_cons, ih]

theorem getEl_setEl_self (s : ConnState) (e : Nat) (el : Elem) (h : e < s.doc.length) :
    getEl (setEl s e el) e = el := by
  simp [getEl, setEl, List.getD_eq_getElem?_getD, List.getElem?_set_self', h]

theorem getEl_setEl_ne (s : ConnState) (e x : Nat) (el : Elem) (h : x ≠ e) :
    getEl (setEl s e el) x = getEl s x := by
  simp [getEl, setEl, List.getD_eq_getElem?_getD, List.getElem?_set_ne (fun hc => h hc.symm)]

theorem setEl_of_ge (s : ConnState) (e : Nat) (el : Elem) (h : s.doc.length ≤ e) :
    setEl s e el = s := by
  cases s
  simp [setEl, List.set_eq_of_length_le h]

theorem doc_length_setEl (s : ConnState) (e : Nat) (el : Elem) :
    (setEl s e el).doc.length = s.doc.length := by
  simp [setEl, List.length_set]

theorem getEl_setEl (s : ConnState) (e x : Nat) (el : Elem) :
    getEl (setEl s e el) x =
      if x = e ∧ e < s.doc.length then el else getEl s x := by
  by_cases hx : x = e
  · subst hx
    by_cases hl : x < s.doc.length
    · simp [getEl_setEl_self s x el hl, hl]
    · rw [setEl_of_ge s x el (Nat.le_of_not_lt hl)]
      simp [hl]
  · simp [getEl_setEl_ne s e x el hx, hx]

/-!
Claim theorems and witnesses.
-/

/-- C10: for every entry list, `filterHostTokens` returns exactly the
non-empty entries containing no dot and `filterChildTokens` exactly the
entries containing a dot; the two results are disjoint, and every non-empty
entry lands in exactly one of the two roles. -/
theorem C10_filter_roles (l : List String) (x : String) :
    (x ∈ Connector.filterHostTokens l ↔ x ∈ l ∧ x ≠ "" ∧ ¬('.' ∈ x.data)) ∧
    (x ∈ Connector.filterChildTokens l ↔ x ∈ l ∧ '.' ∈ x.data) ∧
    ¬(x ∈ Connector.filterHostTokens l ∧ x ∈ Connector.filterChildTokens l) ∧
    (x ∈ l → x ≠ "" →
      (x ∈ Connector.filterHostTokens l ↔ ¬ x ∈ Connector.filterChildTokens l)) := by
  have hdot : ∀ y : String, strContainsSub y "." = true ↔ '.' ∈ y.data := by
    intro y
    have hd : (".").data = ['.'] := rfl
    rw [strContainsSub, hd, listContainsSub_char]
  have hdotf : strContainsSub x "." = false ↔ ¬('.' ∈ x.data) := by
    cases hb : strContainsSub x "." with
    | true => simp [hb, (hdot x).mp hb]
    | false =>
      simp only [hb]
      constructor
      · intro _ hc
        exact absurd ((hdot x).mpr hc) (by simp [hb])
      · intro _
        trivial
  have hhost : x ∈ Connector.filterHostTokens l ↔ x ∈ l ∧ x ≠ "" ∧ ¬('.' ∈ x.data) := by
    simp only [Connector.filterHostTokens, List.mem_filter, Bool.and_eq_true, bne_iff_ne,
      ne_eq, Bool.not_eq_true']
    rw [hdotf]
  have hchild : x ∈ Connector.filterChildTokens l ↔ x ∈ l ∧ '.' ∈ x.data := by
    simp only [Connector.filterChildTokens, List.mem_filter]
    rw [hdot]
  refine ⟨hhost, hchild, ?_, ?_⟩
  · rintro ⟨h1, h2⟩
    exact (hhost.mp h1).2.2 ((hchild.mp h2).2)
  · intro hm hne
    constructor
    · intro h1 h2
      exact (hhost.mp h1).2.2 ((hchild.mp h2).2)
    · intro h2
      refine hhost.mpr ⟨hm, hne, fun hc => h2 (hchild.mpr ⟨hm, hc⟩)⟩

/-- Witness for C10 at a concrete entry list. -/
theorem C10_filter_roles_witness :
    ("a" ∈ Connector.filterHostTokens ["a", "b.c", ""] ↔
      "a" ∈ ["a", "b.c", ""] ∧ "a" ≠ "" ∧ ¬('.' ∈ "a".data)) ∧
    ("a" ∈ ["a", "b.c", ""] → "a" ≠ "" →
      ("a" ∈ Connector.filterHostTokens ["a", "b.c", ""] ↔
        ¬ "a" ∈ Connector.filterChildTokens ["a", "b.c", ""])) := by
  have h := C10_filter_roles ["a", "b.c", ""] "a"
  exact ⟨h.1, h.2.2.2⟩

/-- C9 (as stated) is false: on one element, constructing an
`ElementEventHandler` for `click set to c.foo` and then one for the distinct
descriptor `keydown set to c.foo` leaves the second construction a no-op
(the state is unchanged), because the map is keyed by the kebab-cased
`token.method` pair rather than by the full descriptor: the two bindings do
not coexist, and only the `click` binding exists afterwards. -/
theorem C9_counterexample :
    ElementEventHandler.new c9Base 0 "click->c.foo" = some c9S1 ∧
    ElementEventHandler.new c9S1 0 "keydown->c.foo" = some c9S1 ∧
    (getEl c9S1 0).tm_handler = [("c.foo", c9Click)] ∧
    c9Click.event = "click" := by
  refine ⟨by decide, by decide, by decide, rfl⟩

/-- C9 (amended): action bindings are keyed per element by the kebab-cased
`token.method` pair of the descriptor. Re-registration under an existing key
— whether from the identical descriptor or from a different descriptor with
the same token and method — is a no-op that leaves the state unchanged,
while a successful registration leaves the entries under every other key
untouched. -/
theorem C9_handler_keying (s : ConnState) (e : Nat) (d : String) :
    ((mapGet (getEl s e).tm_handler (ElementEventHandler.tokenKeyOf s e d)).isSome = true →
      (ElementEventHandler.methodSegOf s e d).isSome = true →
      ElementEventHandler.new s e d = some s) ∧
    (∀ s2, ElementEventHandler.new s e d = some s2 →
      ∀ k, k ≠ ElementEventHandler.tokenKeyOf s e d →
        mapGet (getEl s2 e).tm_handler k = mapGet (getEl s e).tm_handler k) := by
  constructor
  · intro hdup hm
    rw [ElementEventHandler.methodSegOf] at hm
    obtain ⟨m0, hm0⟩ := Option.isSome_iff_exists.mp hm
    rw [ElementEventHandler.tokenKeyOf] at hdup
    simp only [hm0, Option.getD_some] at hdup
    simp only [ElementEventHandler.new, hm0, Option.getD_some, hdup, if_true]
  · intro s2 h2 k hk
    rw [ElementEventHandler.tokenKeyOf] at hk
    simp only [ElementEventHandler.new] at h2
    split at h2
    · exact absurd h2 (by simp)
    · next m0 hm0 =>
      split at h2
      · next hdup =>
        injection h2 with h2
        subst h2
        rfl
      · next hdup =>
        split at h2
        · exact absurd h2 (by simp)
        · next g hg =>
          injection h2 with h2
          subst h2
          rw [getEl_setEl]
          by_cases hl : e < s.doc.length
          · simp only [hl, and_true, if_pos (And.intro rfl hl)]
            refine mapGet_mapSet_ne _ _ _ _ ?_
            simpa only [hm0, Option.getD_some] using hk
          · simp [hl]

/-- Witness for the amended C9 theorem: after registering `click set to
c.foo`, constructing the distinct descriptor `keydown set to c.foo` on the
same element is a no-op. -/
theorem C9_handler_keying_witness :
    ElementEventHandler.new c9S1 0 "keydown->c.foo" = some c9S1 :=
  (C9_handler_keying c9S1 0 "keydown->c.foo").1 (by decide) (by decide)

/-- C7 (as stated) is false, three ways. First, in `c7State`, element 0 is
the nearest scope-marked ancestor of the button for token `b` (its scope
attribute is `" b a "`), it hosts the connected instance 0 of token `b`, and
that instance's class defines the method `run` — so the claim requires the
dispatch to invoke it — yet the listener built by the constructor for
`click set to b.run` does nothing, because the code resolves over the
CONNECT attribute (which reads `"a"`), not the scope-marker attribute.
Second, in `c7DiscState` the resolved instance is disconnected (flag
cleared, absent from the connected set) and the claim requires a no-op, yet
the dispatch proceeds: connectedness is never checked (the check is
commented out in the source). Third, in `c7ThrowState` the dispatch is not
error-free as claimed: the bulk parameter attribute decodes to JSON `null`
and the per-parameter assignment onto it throws a `TypeError`, so the method
is never invoked. -/
theorem C7_counterexample :
    Connector.handlerElAdded c7Base 1 = some c7State ∧
    mapGet (getEl c7State 1).tm_handler "b.run" = some c7Handler ∧
    closestScope c7State 1 "b" = some 0 ∧
    mapGet (getEl c7State 0).tm_host "b" = some 0 ∧
    instCore (c7State.insts.get? 0) = some ("b", 0, true) ∧
    "run" ∈ methodsOf c7Reg "b" ∧
    ElementEventHandler.listener c7Reg c7State 1 c7Handler ⟨"", []⟩ = Except.ok none ∧
    c7DiscState.insts.get? 0 = some ⟨"b", 0, false, []⟩ ∧
    (0 : Nat) ∉ c7DiscState.connectedAspects ∧
    ElementEventHandler.listener c7Reg c7DiscState 1 c7Handler ⟨"", []⟩
      = Except.ok (some ⟨0, "run", false, false, JVal.obj []⟩) ∧
    ElementEventHandler.typecast "null" = JVal.null ∧
    ElementEventHandler.listener c7Reg c7ThrowState 1 c7Handler ⟨"", []⟩
      = Except.error "TypeError: cannot set property on a primitive or null" := by
  refine ⟨by decide, by decide, by decide, by decide, rfl, by decide, rfl, rfl,
    by decide, rfl, rfl, rfl⟩

/-- C7 (amended): when an action's event fires, the owning element is
resolved by document id if the descriptor carried a truthy `#hostId`, and
otherwise as the nearest ancestor (inclusive) whose CONNECT attribute
contains the token as a space-separated entry; if no instance for the token
is registered on the resolved element (the instance's connectedness is never
consulted), or the resolved instance's class does not define the named
method, the dispatch silently does nothing; when it does proceed, the
parameter gathering either succeeds and the call is made with the gathered
object, or throws a `TypeError` (null or primitive bulk-parameter base with
a per-parameter attribute present), which propagates instead of a call. -/
theorem C7_dispatch_resolution (reg : Registry) (s : ConnState) (e : Nat) (h : Handler)
    (ev : EvInfo) :
    (ElementEventHandler.resolveTargetEl s e h =
      if (h.hostId.getD "") != "" then getElementById s (h.hostId.getD "")
      else closestConnectToken s e h.aspectToken) ∧
    ((ElementEventHandler.resolveTargetEl s e h).bind
        (fun j => mapGet (getEl s j).tm_host h.aspectToken) = none →
      ElementEventHandler.listener reg s e h ev = Except.ok none) ∧
    (∀ j a, (ElementEventHandler.resolveTargetEl s e h).bind
        (fun j => mapGet (getEl s j).tm_host h.aspectToken) = some j →
      s.insts.get? j = some a →
      ¬ h.aspectMethod ∈ methodsOf reg a.token →
      ElementEventHandler.listener reg s e h ev = Except.ok none) ∧
    (∀ j a pv, (ElementEventHandler.resolveTargetEl s e h).bind
        (fun j => mapGet (getEl s j).tm_host h.aspectToken) = some j →
      s.insts.get? j = some a →
      h.aspectMethod ∈ methodsOf reg a.token →
      ElementEventHandler.triggerGuard h ev = false →
      ElementEventHandler.gatherParams s e h = Except.ok pv →
      ∃ call, ElementEventHandler.listener reg s e h ev = Except.ok (some call) ∧
        call.inst = j ∧ call.method = h.aspectMethod ∧ call.params = pv) ∧
    (∀ j a m, (ElementEventHandler.resolveTargetEl s e h).bind
        (fun j => mapGet (getEl s j).tm_host h.aspectToken) = some j →
      s.insts.get? j = some a →
      h.aspectMethod ∈ methodsOf reg a.token →
      ElementEventHandler.triggerGuard h ev = false →
      ElementEventHandler.gatherParams s e h = Except.error m →
      ElementEventHandler.listener reg s e h ev = Except.error m) := by
  refine ⟨rfl, ?_, ?_, ?_, ?_⟩
  · intro hn
    unfold ElementEventHandler.listener
    rw [hn]
    cases hg : ElementEventHandler.triggerGuard h ev <;> simp
  · intro j a hj ha hm
    have hc : ((methodsOf reg a.token).contains h.aspectMethod) = false := by
      rw [← Bool.not_eq_true]
      exact fun hcc => hm (List.mem_of_elem_eq_true hcc)
    simp only [ElementEventHandler.listener, hj, ha, hc]
    cases hg : ElementEventHandler.triggerGuard h ev <;> simp
  · intro j a pv hj ha hm hg hp
    have hc : ((methodsOf reg a.token).contains h.aspectMethod) = true :=
      List.elem_eq_true_of_mem hm
    simp only [ElementEventHandler.listener, hj, ha, hc, hg, hp, Bool.not_true,
      Bool.false_eq_true, if_false]
    exact ⟨_, rfl, rfl, rfl, rfl⟩
  · intro j a m hj ha hm hg hp
    have hc : ((methodsOf reg a.token).contains h.aspectMethod) = true :=
      List.elem_eq_true_of_mem hm
    simp only [ElementEventHandler.listener, hj, ha, hc, hg, hp, Bool.not_true,
      Bool.false_eq_true, if_false]

/-- Witness for the amended C7 theorem: the `b.run` handler no-ops because
the connect-attribute resolution finds no host for `b`; the `a.go` handler
on the same button dispatches to instance 1 with the empty parameter
object; and on the throw state the listener propagates the `TypeError` from
the parameter assignment. -/
theorem C7_dispatch_resolution_witness :
    ElementEventHandler.listener c7Reg c7State 1 c7Handler ⟨"", []⟩ = Except.ok none ∧
    (∃ call, ElementEventHandler.listener c7Reg c7State 1 c7GoHandler ⟨"", []⟩
        = Except.ok (some call) ∧
      call.inst = 1 ∧ call.method = "go" ∧ call.params = JVal.obj []) ∧
    ElementEventHandler.listener c7Reg c7ThrowState 1 c7Handler ⟨"", []⟩
      = Except.error "TypeError: cannot set property on a primitive or null" := by
  refine ⟨?_, ?_, ?_⟩
  · exact (C7_dispatch_resolution c7Reg c7State 1 c7Handler ⟨"", []⟩).2.1 (by decide)
  · exact (C7_dispatch_resolution c7Reg c7State 1 c7GoHandler ⟨"", []⟩).2.2.2.1 1
      ⟨"a", 0, true, []⟩ (JVal.obj []) (by decide) rfl (by decide) (by decide) (by rfl)
  · exact (C7_dispatch_resolution c7Reg c7ThrowState 1 c7Handler ⟨"", []⟩).2.2.2.2 0
      ⟨"b", 0, true, []⟩ "TypeError: cannot set property on a primitive or null"
      (by decide) rfl (by decide) (by decide) (by rfl)

/-- C8 (as stated) is false: a malformed bulk property attribute makes
`initializeAttributes` throw, because its `JSON.parse` call is not wrapped
in a `try` block — the value does not fall back to the raw string. -/
theorem C8_counterexample :
    jsonParse "\x7b" = none ∧
    AspectAttributeSyncer.initializeAttributes c8Decl "c" [] [] c8St =
      Except.error "SyntaxError: JSON.parse" :=
  ⟨rfl, rfl⟩

/-- C8 (amended): attribute values decoded through `read` (declared types
that require JSON decoding) and action parameters decoded through `typecast`
never raise on a JSON parse failure — the value falls back to the raw string
unchanged; but a malformed non-empty bulk attribute `data-token` makes
`initializeAttributes` propagate the thrown `SyntaxError`. -/
theorem C8_json_fallback (decl : List (String × JVal)) (k v : String) :
    (AspectAttributeSyncer.usesJsonDecoding decl k = true → jsonParse v = none →
      AspectAttributeSyncer.read decl k v = JVal.str v) ∧
    (jsonParse v = none → ElementEventHandler.typecast v = JVal.str v) ∧
    (∀ token methods arg (st : SyncSt) bulkv,
      mapGet st.attrs ("data-" ++ token) = some bulkv → bulkv ≠ "" →
      jsonParse bulkv = none →
      AspectAttributeSyncer.initializeAttributes decl token methods arg st =
        Except.error "SyntaxError: JSON.parse") := by
  refine ⟨?_, ?_, ?_⟩
  · intro hj hp
    unfold AspectAttributeSyncer.usesJsonDecoding at hj
    unfold AspectAttributeSyncer.read
    rcases hd : mapGet decl k with _ | dv
    · simp [hp]
    · cases dv <;> simp_all [hp]
  · intro hp
    simp [ElementEventHandler.typecast, hp]
  · intro token methods arg st bulkv hb hne hp
    have hb2 : mapGet st.attrs ("data-" ++ token) = some bulkv := hb
    have hbeq : (bulkv == "") = false := by
      simp only [beq_eq_false_iff_ne, ne_eq]
      exact hne
    unfold AspectAttributeSyncer.initializeAttributes AspectAttributeSyncer.bulkParse
    rw [hb2]
    simp [hbeq, hp]

/-- Witness for the amended C8 theorem at concrete inputs. -/
theorem C8_json_fallback_witness :
    AspectAttributeSyncer.read c8Decl "config" "\x7b" = JVal.str "\x7b" ∧
    ElementEventHandler.typecast "\x7b" = JVal.str "\x7b" ∧
    AspectAttributeSyncer.initializeAttributes c8Decl "c" [] [] c8St =
      Except.error "SyntaxError: JSON.parse" := by
  have h := C8_json_fallback c8Decl "config" "\x7b"
  exact ⟨h.1 (by decide) rfl, h.2.1 rfl, h.2.2 "c" [] [] c8St "\x7b" rfl (by decide) rfl⟩

theorem mem_filter_not_contains (l₁ l₂ : List String) (x : String) :
    x ∈ l₁.filter (fun i => !(l₂.contains i)) ↔ x ∈ l₁ ∧ x ∉ l₂ := by
  simp only [List.mem_filter, Bool.not_eq_true']
  constructor
  · rintro ⟨hm, hc⟩
    refine ⟨hm, ?_⟩
    intro hmem
    have hcc : l₂.contains x = true := List.elem_eq_true_of_mem hmem
    rw [hcc] at hc
    exact absurd hc (by decide)
  · rintro ⟨hm, hnm⟩
    refine ⟨hm, ?_⟩
    cases hc : l₂.contains x with
    | false => rfl
    | true => exact absurd (List.mem_of_elem_eq_true hc) hnm

/-!
Invariant kit: child-level operations preserve the document skeleton,
instance identity and lifecycle flags, and append no lifecycle event.
-/

theorem DocCore_refl (s : ConnState) : DocCore s s :=
  ⟨rfl, fun _ => rfl⟩

theorem DocCore_trans {s1 s2 s3 : ConnState} (h1 : DocCore s1 s2) (h2 : DocCore s2 s3) :
    DocCore s1 s3 :=
  ⟨h2.1.trans h1.1, fun x => (h2.2 x).trans (h1.2 x)⟩

theorem InstsCore_refl (s : ConnState) : InstsCore s s :=
  ⟨rfl, fun _ => rfl⟩

theorem InstsCore_trans {s1 s2 s3 : ConnState} (h1 : InstsCore s1 s2) (h2 : InstsCore s2 s3) :
    InstsCore s1 s3 :=
  ⟨h2.1.trans h1.1, fun j => (h2.2 j).trans (h1.2 j)⟩

theorem ChildLevel_refl (s : ConnState) : ChildLevel s s :=
  ⟨DocCore_refl s, InstsCore_refl s, [], by simp, by simp⟩

theorem ChildLevel_trans {s1 s2 s3 : ConnState} (h1 : ChildLevel s1 s2)
    (h2 : ChildLevel s2 s3) : ChildLevel s1 s3 := by
  obtain ⟨hd1, hi1, Δ1, ht1, hl1⟩ := h1
  obtain ⟨hd2, hi2, Δ2, ht2, hl2⟩ := h2
  refine ⟨DocCore_trans hd1 hd2, InstsCore_trans hi1 hi2, Δ1 ++ Δ2, ?_, ?_⟩
  · rw [ht2, ht1, List.append_assoc]
  · intro ev hev
    rcases List.mem_append.mp hev with h | h
    · exact hl1 ev h
    · exact hl2 ev h

theorem ChildLevel_setEl (s : ConnState) (e : Nat) (el' : Elem)
    (h : elemCore el' = elemCore (getEl s e)) : ChildLevel s (setEl s e el') := by
  refine ⟨⟨doc_length_setEl s e el', ?_⟩, InstsCore_refl _, [], by simp [setEl], by simp⟩
  intro x
  rw [getEl_setEl]
  by_cases hx : x = e ∧ e < s.doc.length
  · rw [if_pos hx, hx.1, h]
  · rw [if_neg hx]

theorem ChildLevel_emit (s : ConnState) (ev : Event) (h : isLifeEvent ev = false) :
    ChildLevel s (emit s ev) := by
  refine ⟨⟨rfl, fun _ => rfl⟩, InstsCore_refl _, [ev], rfl, ?_⟩
  intro ev2 hev2
  rw [List.mem_singleton.mp hev2]
  exact h

theorem ChildLevel_addOrphan (s : ConnState) (e : Nat) (h t : String) :
    ChildLevel s (Connector.addOrphan s e h t) := by
  refine ⟨⟨rfl, fun _ => rfl⟩, InstsCore_refl _, [], by simp [Connector.addOrphan], by simp⟩

theorem ChildLevel_instSet (s : ConnState) (j : Nat) (a' : AspectInst)
    (h : instCore (some a') = instCore (s.insts.get? j)) :
    ChildLevel s { s with insts := s.insts.set j a' } := by
  refine ⟨⟨rfl, fun _ => rfl⟩, ⟨by simp [List.length_set], ?_⟩, [], by simp, by simp⟩
  intro k
  simp only [List.get?_set]
  by_cases hk : j = k
  · subst hk
    cases hg : s.insts.get? j with
    | none => simp [hg]
    | some a =>
      rw [hg] at h
      simp [hg, h]
  · simp [hk]

theorem ChildLevel_storeConn (s : ConnState) (e : Nat) (d : String) (c : Conn) :
    ChildLevel s (storeConn s e d c) :=
  ChildLevel_setEl s e _ rfl

theorem ChildLevel_ecNew (s : ConnState) (e : Nat) (d : String) :
    ChildLevel s (ElementConnection.new s e d).2 := by
  unfold ElementConnection.new
  by_cases h : ((((splitDotHash d).get? 1).getD "" == "") ||
      (((splitDotHash d).get? 0).getD "" == "")) = true
  · rw [if_pos h]
    exact ChildLevel_refl s
  · rw [if_neg h]
    exact ChildLevel_storeConn _ _ _ _

theorem ChildLevel_instAddElem (s : ConnState) (j : Nat) (ty : String) (el : Nat) :
    ChildLevel s (instAddElem s j ty el) := by
  unfold instAddElem
  cases hg : s.insts.get? j with
  | none => exact ChildLevel_refl s
  | some a =>
    exact ChildLevel_instSet s j _ (by rw [hg]; rfl)

theorem ChildLevel_instDelElem (s : ConnState) (j : Nat) (ty : String) (el : Nat) :
    ChildLevel s (instDelElem s j ty el) := by
  unfold instDelElem
  cases hg : s.insts.get? j with
  | none => exact ChildLevel_refl s
  | some a =>
    exact ChildLevel_instSet s j _ (by rw [hg]; rfl)

theorem ChildLevel_ecConnect (reg : Registry) (s : ConnState) (c : Conn) :
    ChildLevel s (ElementConnection.connect reg s c).2 := by
  unfold ElementConnection.connect
  split
  · exact ChildLevel_refl s
  · split
    · exact ChildLevel_refl s
    · next j hj =>
      split
      · exact ChildLevel_refl s
      · next a ha =>
        refine ChildLevel_trans (ChildLevel_instAddElem s j (c.type.getD "") c.el) ?_
        show ChildLevel (instAddElem s j (c.type.getD "") c.el)
          (if (methodsOf reg a.token).contains
              (camelCase (c.type.getD "") ++ "ElementConnected") then
            emit (instAddElem s j (c.type.getD "") c.el)
              (.elemConnected j (c.type.getD "") c.el)
          else instAddElem s j (c.type.getD "") c.el)
        split
        · exact ChildLevel_emit _ _ rfl
        · exact ChildLevel_refl _

theorem ChildLevel_ecDisconnect (reg : Registry) (s : ConnState) (c : Conn) :
    ChildLevel s (ElementConnection.disconnect reg s c).2 := by
  unfold ElementConnection.disconnect
  split
  · exact ChildLevel_refl s
  · split
    · exact ChildLevel_refl s
    · next j hj =>
      split
      · exact ChildLevel_refl s
      · next a ha =>
        refine ChildLevel_trans (ChildLevel_instDelElem s j (c.type.getD "") c.el) ?_
        show ChildLevel (instDelElem s j (c.type.getD "") c.el)
          (if (methodsOf reg a.token).contains
              (camelCase (c.type.getD "") ++ "ElementDisconnected") then
            emit (instDelElem s j (c.type.getD "") c.el)
              (.elemDisconnected j (c.type.getD "") c.el)
          else instDelElem s j (c.type.getD "") c.el)
        split
        · exact ChildLevel_emit _ _ rfl
        · exact ChildLevel_refl _

theorem ChildLevel_foldl {α : Type} (f : ConnState → α → ConnState)
    (hf : ∀ s x, ChildLevel s (f s x)) : ∀ (l : List α) (s : ConnState),
    ChildLevel s (l.foldl f s)
  | [], s => ChildLevel_refl s
  | x :: xs, s => ChildLevel_trans (hf s x) (ChildLevel_foldl f hf xs (f s x))

theorem ChildLevel_childStepCore (reg : Registry) (e : Nat) (d : String) (s1 : ConnState) :
    ChildLevel s1 (
      let p := ElementConnection.new s1 e d
      let c := p.1
      let s := p.2
      if c.aspect.isNone && connTruthyHostId c then
        Connector.addOrphan s e (c.hostId.getD "") d
      else
        let q := ElementConnection.connect reg s c
        if c.type.isSome then storeConn q.2 e d q.1 else q.2) := by
  have hnew := ChildLevel_ecNew s1 e d
  show ChildLevel s1 (
      if (ElementConnection.new s1 e d).1.aspect.isNone &&
          connTruthyHostId (ElementConnection.new s1 e d).1 then
        Connector.addOrphan (ElementConnection.new s1 e d).2 e
          ((ElementConnection.new s1 e d).1.hostId.getD "") d
      else
        if (ElementConnection.new s1 e d).1.type.isSome then
          storeConn (ElementConnection.connect reg (ElementConnection.new s1 e d).2
              (ElementConnection.new s1 e d).1).2 e d
            (ElementConnection.connect reg (ElementConnection.new s1 e d).2
              (ElementConnection.new s1 e d).1).1
        else (ElementConnection.connect reg (ElementConnection.new s1 e d).2
          (ElementConnection.new s1 e d).1).2)
  by_cases hor : ((ElementConnection.new s1 e d).1.aspect.isNone &&
      connTruthyHostId (ElementConnection.new s1 e d).1) = true
  · rw [if_pos hor]
    exact ChildLevel_trans hnew (ChildLevel_addOrphan _ _ _ _)
  · rw [if_neg hor]
    have hconn := ChildLevel_ecConnect reg (ElementConnection.new s1 e d).2
      (ElementConnection.new s1 e d).1
    by_cases hty : (ElementConnection.new s1 e d).1.type.isSome = true
    · rw [if_pos hty]
      exact ChildLevel_trans hnew (ChildLevel_trans hconn (ChildLevel_storeConn _ _ _ _))
    · rw [if_neg hty]
      exact ChildLevel_trans hnew hconn

theorem ChildLevel_childTokensAdded (reg : Registry) (e : Nat) (tokens : List String)
    (s : ConnState) : ChildLevel s (Connector.childTokensAdded reg s e tokens) := by
  unfold Connector.childTokensAdded
  refine ChildLevel_foldl _ ?_ tokens s
  intro s d
  refine @ChildLevel_trans s (match mapGet (getEl s e).tm_child d with
    | some c0 =>
      if c0.connected then
        let p := ElementConnection.disconnect reg s c0
        storeConn p.2 e d p.1
      else s
    | none => s) _ ?_ ?_
  · cases hm : mapGet (getEl s e).tm_child d with
    | none => exact ChildLevel_refl s
    | some c0 =>
      by_cases hcn : c0.connected = true
      · simp only [hcn, if_true]
        exact ChildLevel_trans (ChildLevel_ecDisconnect reg s c0) (ChildLevel_storeConn _ _ _ _)
      · rw [Bool.not_eq_true] at hcn
        simp only [hcn, Bool.false_eq_true, if_false]
        exact ChildLevel_refl s
  · exact ChildLevel_childStepCore reg e d _

/-- C5: when the connect attribute changes on an element that stays in the
document, the handler splits the old and new values on spaces, computes the
removed entries (in old, not in new) and the added ones (in new, not in
old), and processes them in the order: removed child descriptors, removed
host tokens, added host tokens (with descendant re-scan), added child
descriptors — removals strictly before additions in the same callback. -/
theorem C5_attribute_diff_order (reg : Registry) (fuel : Nat) (s : ConnState) (e : Nat)
    (ov nv : String) (hnv : getAttrVal s e connectAttr = some nv) :
    (∀ x, x ∈ (splitSpace ov).filter (fun i => !((splitSpace nv).contains i)) ↔
        x ∈ splitSpace ov ∧ x ∉ splitSpace nv) ∧
    (∀ x, x ∈ (splitSpace nv).filter (fun i => !((splitSpace ov).contains i)) ↔
        x ∈ splitSpace nv ∧ x ∉ splitSpace ov) ∧
    Connector.attributeObserverStep reg fuel s e connectAttr (some ov) =
      (Connector.childTokensRemoved reg s e
          (Connector.filterChildTokens
            ((splitSpace ov).filter (fun i => !((splitSpace nv).contains i))))).bind
        (fun s1 =>
          (Connector.hostTokensRemoved reg s1 e
              (Connector.filterHostTokens
                ((splitSpace ov).filter (fun i => !((splitSpace nv).contains i))))).bind
            (fun s2 =>
              (Connector.hostTokensAdded reg fuel s2 e
                  (Connector.filterHostTokens
                    ((splitSpace nv).filter (fun i => !((splitSpace ov).contains i)))) true).map
                (fun s3 =>
                  Connector.childTokensAdded reg s3 e
                    (Connector.filterChildTokens
                      ((splitSpace nv).filter (fun i => !((splitSpace ov).contains i))))))) := by
  refine ⟨fun x => mem_filter_not_contains _ _ x, fun x => mem_filter_not_contains _ _ x, ?_⟩
  simp only [Connector.attributeObserverStep, beq_self_eq_true, if_true, hnv]

/-- Witness for C5 at a concrete mutation from `"a b.x"` to `"b.x c"`. -/
theorem C5_attribute_diff_order_witness :
    ("a" ∈ (splitSpace "a b.x").filter (fun i => !((splitSpace "b.x c").contains i)) ↔
      "a" ∈ splitSpace "a b.x" ∧ "a" ∉ splitSpace "b.x c") ∧
    Connector.attributeObserverStep c5Reg 1 c5State 0 connectAttr (some "a b.x") =
      (Connector.childTokensRemoved c5Reg c5State 0
          (Connector.filterChildTokens
            ((splitSpace "a b.x").filter (fun i => !((splitSpace "b.x c").contains i))))).bind
        (fun s1 =>
          (Connector.hostTokensRemoved c5Reg s1 0
              (Connector.filterHostTokens
                ((splitSpace "a b.x").filter (fun i => !((splitSpace "b.x c").contains i))))).bind
            (fun s2 =>
              (Connector.hostTokensAdded c5Reg 1 s2 0
                  (Connector.filterHostTokens
                    ((splitSpace "b.x c").filter
                      (fun i => !((splitSpace "a b.x").contains i)))) true).map
                (fun s3 =>
                  Connector.childTokensAdded c5Reg s3 0
                    (Connector.filterChildTokens
                      ((splitSpace "b.x c").filter
                        (fun i => !((splitSpace "a b.x").contains i))))))) := by
  have h := C5_attribute_diff_order c5Reg 1 c5State 0 "a b.x" "b.x c" rfl
  exact ⟨h.1 "a", h.2.2⟩

/-!
C3: idempotence of aspect injection for tokens already present on a host.
-/

theorem injectAspect_skip (reg : Registry) (fuel : Nat) (s : ConnState) (e : Nat)
    (token : String) (cls : AspectClass)
    (h1 : mapGet reg.aspectRegister token = some cls)
    (h2 : mapHas (getEl s e).tm_host token = true) :
    Connector.injectAspect reg (fuel + 1) s e token = some s := by
  unfold Connector.injectAspect
  rw [h1]
  simp only [h2, if_true]

theorem injectList_skip (reg : Registry) (fuel : Nat) (e : Nat) :
    ∀ (deps : List String) (s : ConnState),
    (∀ t ∈ deps, (∃ cls, mapGet reg.aspectRegister t = some cls) ∧
      mapHas (getEl s e).tm_host t = true) →
    Connector.injectList reg (fuel + 1) s e deps = some s := by
  intro deps
  induction deps with
  | nil => intro s _; simp [Connector.injectList]
  | cons t ts ih =>
    intro s h
    obtain ⟨⟨cls, hcls⟩, hhas⟩ := h t (List.mem_cons_self t ts)
    unfold Connector.injectList
    rw [injectAspect_skip reg fuel s e t cls hcls hhas]
    exact ih s (fun x hx => h x (List.mem_cons_of_mem t hx))

/-- C3: a (host element, token) pair maps to at most one controller
instance. Processing a token whose class is registered and which is already
present in the host's `stim_tm_host` map is a strict no-op for
`Connector.injectAspect` (the state, hence the instance list and the host
map, is returned unchanged and no `initialized` callback runs), and
re-injecting a whole dependency list of already-present registered tokens is
likewise the identity, so no second instance is ever created for the pair. -/
theorem C3_at_most_one_instance (reg : Registry) (fuel : Nat) (s : ConnState) (e : Nat)
    (token : String) (cls : AspectClass) (deps : List String)
    (hreg : mapGet reg.aspectRegister token = some cls)
    (hpres : mapHas (getEl s e).tm_host token = true)
    (hdeps : ∀ t ∈ deps, (∃ c, mapGet reg.aspectRegister t = some c) ∧
      mapHas (getEl s e).tm_host t = true) :
    Connector.injectAspect reg (fuel + 1) s e token = some s ∧
    Connector.injectList reg (fuel + 1) s e deps = some s :=
  ⟨injectAspect_skip reg fuel s e token cls hreg hpres,
   injectList_skip reg fuel e deps s hdeps⟩

/-- Witness for C3: on the concrete two-aspect state, re-processing the
already-present token `a` and re-injecting its dependency list `[b]` both
leave the state untouched. -/
theorem C3_at_most_one_instance_witness :
    Connector.injectAspect c7Reg 5 c7Base 0 "a" = some c7Base ∧
    Connector.injectList c7Reg 5 c7Base 0 ["b"] = some c7Base :=
  C3_at_most_one_instance c7Reg 4 c7Base 0 "a" ⟨["b"], [], ["go"]⟩ ["b"] (by rfl) (by rfl)
    (by
      intro t ht
      rw [List.mem_singleton] at ht
      subst ht
      exact ⟨⟨⟨[], [], ["run"]⟩, rfl⟩, rfl⟩)

/-!
C6: string lemmas for the space-padded scope attribute, and first-match
resolution along the ancestor chain.
-/

theorem listPre_refl (x : List Char) : listPre x x = true := by
  induction x with
  | nil => rfl
  | cons c cs ih => simp [listPre, ih]

theorem listContainsSub_nil_pat (l : List Char) : listContainsSub l [] = true := by
  induction l with
  | nil => rfl
  | cons c cs ih => simp [listContainsSub, listPre]

theorem listPre_append_right (p : List Char) :
    ∀ (l m : List Char), listPre p l = true → listPre p (l ++ m) = true := by
  induction p with
  | nil => intro l m _; rfl
  | cons c cs ih =>
    intro l m h
    cases l with
    | nil => exact absurd h (by simp [listPre])
    | cons x xs =>
      simp only [listPre, Bool.and_eq_true] at h
      simp only [List.cons_append, listPre, Bool.and_eq_true]
      exact ⟨h.1, ih xs m h.2⟩

theorem listContainsSub_append_right (pat : List Char) :
    ∀ (l m : List Char), listContainsSub l pat = true → listContainsSub (l ++ m) pat = true := by
  intro l
  induction l with
  | nil =>
    intro m h
    simp only [listContainsSub, List.isEmpty_iff] at h
    subst h
    exact listContainsSub_nil_pat m
  | cons x xs ih =>
    intro m h
    simp only [listContainsSub, Bool.or_eq_true] at h
    simp only [List.cons_append, listContainsSub, Bool.or_eq_true]
    cases h with
    | inl hp => exact Or.inl (listPre_append_right pat (x :: xs) m hp)
    | inr hc => exact Or.inr (ih m hc)

theorem listContainsSub_suffix (pat : List Char) (c : Char) (cs : List Char)
    (hp : pat = c :: cs) : ∀ a : List Char, listContainsSub (a ++ pat) pat = true := by
  intro a
  induction a with
  | nil =>
    subst hp
    show (listPre (c :: cs) (c :: cs) || listContainsSub cs (c :: cs)) = true
    rw [listPre_refl]
    rfl
  | cons x xs ih =>
    show (listPre pat (x :: (xs ++ pat)) || listContainsSub (xs ++ pat) pat) = true
    rw [ih, Bool.or_true]

theorem scope_data_ends : ∀ (l : List String) (acc : String) (p : List Char),
    acc.data = p ++ [' '] →
    ∃ q, (l.foldl (fun a t => a ++ t ++ " ") acc).data = q ++ [' '] := by
  intro l
  induction l with
  | nil => intro acc p h; exact ⟨p, h⟩
  | cons k ks ih =>
    intro acc p h
    apply ih (acc ++ k ++ " ") (acc.data ++ k.data)
    show ((acc ++ k) ++ " ").data = (acc.data ++ k.data) ++ [' ']
    rw [String.data_append, String.data_append]

theorem scope_foldl_contains (pat : String) :
    ∀ (l : List String) (acc : String), strContainsSub acc pat = true →
    strContainsSub (l.foldl (fun a t => a ++ t ++ " ") acc) pat = true := by
  intro l
  induction l with
  | nil => intro acc h; exact h
  | cons k ks ih =>
    intro acc h
    apply ih
    show listContainsSub ((acc ++ k ++ " ")).data pat.data = true
    rw [String.data_append, String.data_append]
    apply listContainsSub_append_right
    apply listContainsSub_append_right
    exact h

theorem scopeStringOf_contains (keys : List String) (tok : String) (h : tok ∈ keys) :
    strContainsSub (Connector.scopeStringOf keys) (" " ++ tok ++ " ") = true := by
  obtain ⟨l1, l2, hk⟩ := List.append_of_mem h
  subst hk
  unfold Connector.scopeStringOf
  rw [List.foldl_append]
  show strContainsSub (l2.foldl _ ((l1.foldl _ " ") ++ tok ++ " ")) (" " ++ tok ++ " ") = true
  apply scope_foldl_contains
  obtain ⟨q, hq⟩ := scope_data_ends l1 " " [] rfl
  show listContainsSub (((l1.foldl _ " ") ++ tok ++ " ")).data (" " ++ tok ++ " ").data = true
  rw [String.data_append, String.data_append, hq, List.append_assoc, List.append_assoc]
  exact listContainsSub_suffix (" " ++ tok ++ " ").data ' ' (tok.data ++ [' ']) rfl q

theorem scopeStringOf_empty_beq (keys : List String) :
    (("" : String) == Connector.scopeStringOf keys) = false := by
  rw [beq_eq_false_iff_ne]
  intro h
  have hd : (("" : String)).data = (Connector.scopeStringOf keys).data :=
    congrArg String.data h
  obtain ⟨q, hq⟩ := scope_data_ends keys " " [] rfl
  unfold Connector.scopeStringOf at hd
  rw [hq] at hd
  exact absurd hd (by simp)

theorem find_first_match {α : Type} (p : α → Bool) :
    ∀ (pre : List α) (x : α) (post : List α),
    (∀ y ∈ pre, p y = false) → p x = true →
    (pre ++ x :: post).find? p = some x := by
  intro pre
  induction pre with
  | nil =>
    intro x post _ hx
    show (x :: post).find? p = some x
    rw [List.find?_cons_of_pos _ hx]
  | cons y ys ih =>
    intro x post hpre hx
    rw [List.cons_append, List.find?_cons_of_neg _ (by
      rw [hpre y (List.mem_cons_self y ys)]
      exact Bool.false_ne_true)]
    exact ih x post (fun z hz => hpre z (List.mem_cons_of_mem y hz)) hx

/-- C6: the scope-marker attribute written by `setHostScopeAttribute` is the
reduce of the host-map keys over `acc ++ token ++ " "` starting from a single
space, so it holds every current token surrounded by spaces; and the owner of
a target descriptor without a host id is resolved by `closest` on the scope
selector, which returns the nearest (innermost) scope-marked ancestor
matching the token and never an outer one, and the stored aspect reference is
the host-map entry of that nearest ancestor. -/
theorem C6_scope_format_and_nearest (s : ConnState) (e f inner : Nat)
    (tok ty d : String) (pre post : List Nat)
    (he : e < s.doc.length)
    (hchain : ancestorChain s f = pre ++ inner :: post)
    (hpre : ∀ x ∈ pre, scopeMatches s x tok = false)
    (hinner : scopeMatches s inner tok = true)
    (hd : splitDotHash d = [tok, ty])
    (htok : tok ≠ "") (hty : ty ≠ "") :
    getAttrVal (Connector.setHostScopeAttribute s e "") e scopeAttr
      = some (Connector.scopeStringOf ((getEl s e).tm_host.map Prod.fst)) ∧
    (∀ t ∈ (getEl s e).tm_host.map Prod.fst,
      strContainsSub (Connector.scopeStringOf ((getEl s e).tm_host.map Prod.fst))
        (" " ++ t ++ " ") = true) ∧
    closestScope s f tok = some inner ∧
    (∀ outer ∈ post, outer ≠ inner → closestScope s f tok ≠ some outer) ∧
    (ElementConnection.new s f d).1.aspect = mapGet (getEl s inner).tm_host tok := by
  have hclosest : closestScope s f tok = some inner := by
    unfold closestScope
    rw [hchain]
    exact find_first_match _ pre inner post hpre hinner
  refine ⟨?_, ?_, hclosest, ?_, ?_⟩
  · simp only [Connector.setHostScopeAttribute, scopeStringOf_empty_beq,
      Bool.false_eq_true, if_false]
    show mapGet (getEl (setEl s e _) e).attrs scopeAttr = _
    rw [getEl_setEl_self s e _ he]
    exact mapGet_mapSet_self _ _ _
  · intro t ht
    exact scopeStringOf_contains _ t ht
  · intro outer _ hne
    rw [hclosest]
    intro hcontra
    exact hne (Option.some.inj hcontra).symm
  · have h1 : ((ty == "") || (tok == "")) = false := by
      rw [beq_eq_false_iff_ne.mpr hty, beq_eq_false_iff_ne.mpr htok]
      rfl
    simp only [ElementConnection.new, hd, List.get?_cons_zero, List.get?_cons_succ,
      List.get?_nil, Option.getD_some, Option.getD_none, h1, Bool.false_eq_true, if_false,
      bne_self_eq_false, hclosest, Option.some_bind]

/-- Witness for C6 on the nested-hosts state: the inner host's scope
attribute is rewritten to the padded list, the target's `dd.item` descriptor
resolves to the inner host (element 1), and never to the outer host
(element 0). -/
theorem C6_scope_format_and_nearest_witness :
    getAttrVal (Connector.setHostScopeAttribute c6State 1 "") 1 scopeAttr
      = some (Connector.scopeStringOf ((getEl c6State 1).tm_host.map Prod.fst)) ∧
    (∀ t ∈ (getEl c6State 1).tm_host.map Prod.fst,
      strContainsSub (Connector.scopeStringOf ((getEl c6State 1).tm_host.map Prod.fst))
        (" " ++ t ++ " ") = true) ∧
    closestScope c6State 2 "dd" = some 1 ∧
    (∀ outer ∈ [0], outer ≠ 1 → closestScope c6State 2 "dd" ≠ some outer) ∧
    (ElementConnection.new c6State 2 "dd.item").1.aspect
      = mapGet (getEl c6State 1).tm_host "dd" :=
  C6_scope_format_and_nearest c6State 1 2 1 "dd" "item" "dd.item" [2] [0]
    (by decide) (by decide) (by decide) (by decide) (by decide) (by decide) (by decide)

/-!
C4: first-match-wins precedence of the property-initialization sources, and
one-shot consumption of the bulk attribute.
-/

theorem setAttribute_slots_ne (decl : List (String × JVal)) (token : String)
    (methods : List String) (st : SyncSt) (attrKey : String) (val : JVal) (sync : Bool)
    (k : String) (hk : k ≠ attrKey) :
    mapGet (AspectAttributeSyncer.setAttribute decl token methods st attrKey val sync).slots k
      = mapGet st.slots k := by
  unfold AspectAttributeSyncer.setAttribute
  dsimp only
  repeat' split
  all_goals
    first
    | rfl
    | exact mapGet_mapSet_ne _ _ _ _ hk

theorem setAttribute_attrs_ne (decl : List (String × JVal)) (token : String)
    (methods : List String) (st : SyncSt) (attrKey : String) (val : JVal) (sync : Bool)
    (a : String) (ha : a ≠ dataAttrOf token attrKey) :
    mapGet (AspectAttributeSyncer.setAttribute decl token methods st attrKey val sync).attrs a
      = mapGet st.attrs a := by
  unfold AspectAttributeSyncer.setAttribute
  dsimp only
  repeat' split
  all_goals
    first
    | rfl
    | exact mapGet_mapDelete_ne _ _ _ ha
    | exact mapGet_mapSet_ne _ _ _ _ ha

theorem setAttribute_slot_set (decl : List (String × JVal)) (token : String)
    (methods : List String) (st : SyncSt) (attrKey : String) (val : JVal) (sync : Bool)
    (hs : mapGet st.slots attrKey = none) :
    mapGet (AspectAttributeSyncer.setAttribute decl token methods st attrKey val sync).slots
      attrKey = some val := by
  unfold AspectAttributeSyncer.setAttribute
  dsimp only
  rw [hs]
  show mapGet (if false = true then st else _).slots attrKey = some val
  rw [if_neg (by simp)]
  repeat' split
  all_goals
    exact mapGet_mapSet_self _ _ _

theorem initStep_slots_ne (decl : List (String × JVal)) (token : String)
    (methods : List String) (aA gA : List (String × JVal)) (st : SyncSt)
    (attrKey : String) (dflt : JVal) (k : String) (hk : k ≠ attrKey) :
    mapGet (AspectAttributeSyncer.initStep decl token methods aA gA st attrKey dflt).slots k
      = mapGet st.slots k := by
  unfold AspectAttributeSyncer.initStep
  dsimp only
  split
  · exact setAttribute_slots_ne _ _ _ _ _ _ _ _ hk
  · split
    · exact setAttribute_slots_ne _ _ _ _ _ _ _ _ hk
    · split
      · exact setAttribute_slots_ne _ _ _ _ _ _ _ _ hk
      · exact setAttribute_slots_ne _ _ _ _ _ _ _ _ hk

theorem initStep_attrs_ne (decl : List (String × JVal)) (token : String)
    (methods : List String) (aA gA : List (String × JVal)) (st : SyncSt)
    (attrKey : String) (dflt : JVal) (a : String) (ha : a ≠ dataAttrOf token attrKey) :
    mapGet (AspectAttributeSyncer.initStep decl token methods aA gA st attrKey dflt).attrs a
      = mapGet st.attrs a := by
  unfold AspectAttributeSyncer.initStep
  dsimp only
  split
  · exact setAttribute_attrs_ne _ _ _ _ _ _ _ _ ha
  · split
    · exact setAttribute_attrs_ne _ _ _ _ _ _ _ _ ha
    · split
      · exact setAttribute_attrs_ne _ _ _ _ _ _ _ _ ha
      · exact setAttribute_attrs_ne _ _ _ _ _ _ _ _ ha

theorem initFold_preserves (decl : List (String × JVal)) (token : String)
    (methods : List String) (aA gA : List (String × JVal)) (k a : String) :
    ∀ (l : List (String × JVal)) (st : SyncSt),
    (∀ kv ∈ l, kv.1 ≠ k ∧ dataAttrOf token kv.1 ≠ a) →
    mapGet ((l.foldl
        (fun st2 kv => AspectAttributeSyncer.initStep decl token methods aA gA st2 kv.1 kv.2)
        st)).slots k = mapGet st.slots k ∧
    mapGet ((l.foldl
        (fun st2 kv => AspectAttributeSyncer.initStep decl token methods aA gA st2 kv.1 kv.2)
        st)).attrs a = mapGet st.attrs a := by
  intro l
  induction l with
  | nil => intro st _; exact ⟨rfl, rfl⟩
  | cons kv l ih =>
    intro st h
    obtain ⟨hk, ha⟩ := h kv (List.mem_cons_self kv l)
    have hrest := ih (AspectAttributeSyncer.initStep decl token methods aA gA st kv.1 kv.2)
      (fun x hx => h x (List.mem_cons_of_mem kv hx))
    refine ⟨hrest.1.trans ?_, hrest.2.trans ?_⟩
    · exact initStep_slots_ne _ _ _ _ _ _ _ _ _ (fun hc => hk hc.symm)
    · exact initStep_attrs_ne _ _ _ _ _ _ _ _ _ (fun hc => ha hc.symm)

theorem initStep_winner (decl : List (String × JVal)) (token : String)
    (methods : List String) (aA gA : List (String × JVal)) (st1 : SyncSt)
    (attrs0 : List (String × String)) (k : String) (dflt : JVal)
    (ha : mapGet st1.attrs (dataAttrOf token k) = mapGet attrs0 (dataAttrOf token k))
    (hs : mapGet st1.slots k = none) :
    mapGet (AspectAttributeSyncer.initStep decl token methods aA gA st1 k dflt).slots k
      = some (AspectAttributeSyncer.winner decl token aA gA attrs0 k dflt) := by
  unfold AspectAttributeSyncer.initStep AspectAttributeSyncer.winner
  dsimp only
  rw [ha]
  cases mapGet attrs0 (dataAttrOf token k) with
  | some raw => exact setAttribute_slot_set _ _ _ _ _ _ _ hs
  | none =>
    cases mapGet aA k with
    | some v => exact setAttribute_slot_set _ _ _ _ _ _ _ hs
    | none =>
      cases mapGet gA k with
      | some v => exact setAttribute_slot_set _ _ _ _ _ _ _ hs
      | none => exact setAttribute_slot_set _ _ _ _ _ _ _ hs

/-- C4: during `initializeAttributes` the slot of each declared property
receives the first matching source in the order individual attribute
(`data-<token>.<kebab-name>`), bulk-JSON key, injected-override key,
declared default (the `winner` function transcribes this order from the
specification), and the bulk attribute is deleted from the element
afterwards. -/
theorem C4_precedence (decl : List (String × JVal)) (token : String)
    (methods : List String) (argAttributes : List (String × JVal)) (st : SyncSt)
    (attrAttributes : List (String × JVal)) (k : String) (dflt : JVal)
    (hbulk : AspectAttributeSyncer.bulkParse decl token st.attrs
      = Except.ok attrAttributes)
    (hk : (k, dflt) ∈ decl)
    (hkeys : (decl.map Prod.fst).Nodup)
    (hattrs : (decl.map (fun kv => dataAttrOf token kv.1)).Nodup)
    (hslot : mapGet st.slots k = none) :
    ∃ st', AspectAttributeSyncer.initializeAttributes decl token methods argAttributes st
        = Except.ok st' ∧
      mapGet st'.slots k
        = some (AspectAttributeSyncer.winner decl token attrAttributes argAttributes
            st.attrs k dflt) ∧
      mapGet st'.attrs ("data-" ++ token) = none := by
  obtain ⟨l1, l2, hdecomp⟩ := List.append_of_mem hk
  refine ⟨_, by
    unfold AspectAttributeSyncer.initializeAttributes
    rw [hbulk], ?_, ?_⟩
  · show mapGet (decl.foldl
        (fun st2 kv => AspectAttributeSyncer.initStep decl token methods attrAttributes
          argAttributes st2 kv.1 kv.2) st).slots k = _
    have hk_l1 : ∀ kv ∈ l1, kv.1 ≠ k := by
      intro kv hkv hek
      rw [hdecomp, List.map_append, List.nodup_append] at hkeys
      exact hkeys.2.2 (List.mem_map.mpr ⟨kv, hkv, rfl⟩)
        (by rw [hek]; exact List.mem_cons_self k _)
    have hk_l2 : ∀ kv ∈ l2, kv.1 ≠ k := by
      intro kv hkv hek
      rw [hdecomp, List.map_append, List.nodup_append] at hkeys
      have := hkeys.2.1
      rw [List.map_cons, List.nodup_cons] at this
      exact this.1 (List.mem_map.mpr ⟨kv, hkv, hek⟩)
    have ha_l1 : ∀ kv ∈ l1, dataAttrOf token kv.1 ≠ dataAttrOf token k := by
      intro kv hkv hek
      rw [hdecomp, List.map_append, List.nodup_append] at hattrs
      exact hattrs.2.2 (List.mem_map.mpr ⟨kv, hkv, rfl⟩)
        (by rw [hek]; exact List.mem_cons_self _ _)
    have ha_l2 : ∀ kv ∈ l2, dataAttrOf token kv.1 ≠ dataAttrOf token k := by
      intro kv hkv hek
      rw [hdecomp, List.map_append, List.nodup_append] at hattrs
      have := hattrs.2.1
      rw [List.map_cons, List.nodup_cons] at this
      exact this.1 (List.mem_map.mpr ⟨kv, hkv, hek⟩)
    nth_rewrite 2 [hdecomp]
    rw [List.foldl_append]
    have hmid := initFold_preserves decl token methods attrAttributes argAttributes
      k (dataAttrOf token k) l1 st (fun kv hkv => ⟨hk_l1 kv hkv, ha_l1 kv hkv⟩)
    have hstep := initStep_winner decl token methods attrAttributes argAttributes
      _ st.attrs k dflt hmid.2 (hmid.1.trans hslot)
    have hrest := initFold_preserves decl token methods attrAttributes argAttributes
      k (dataAttrOf token k) l2
      (AspectAttributeSyncer.initStep decl token methods attrAttributes argAttributes
        (l1.foldl (fun st2 kv => AspectAttributeSyncer.initStep decl token methods
          attrAttributes argAttributes st2 kv.1 kv.2) st) k dflt)
      (fun kv hkv => ⟨hk_l2 kv hkv, ha_l2 kv hkv⟩)
    rw [List.foldl_cons]
    dsimp only
    rw [hrest.1]
    exact hstep
  · exact mapGet_mapDelete_self _ _

/-- Witness for C4 on the concrete declaration: the individual attribute wins
for `size`, and the bulk attribute `data-t` is removed. -/
theorem C4_precedence_witness :
    ∃ st', AspectAttributeSyncer.initializeAttributes c4Decl "t" [] c4Args c4St
        = Except.ok st' ∧
      mapGet st'.slots "size"
        = some (AspectAttributeSyncer.winner c4Decl "t" [("mode", JVal.str "bulk")] c4Args
            c4St.attrs "size" (JVal.num 1)) ∧
      mapGet st'.attrs ("data-" ++ "t") = none :=
  C4_precedence c4Decl "t" [] c4Args c4St [("mode", JVal.str "bulk")] "size" (JVal.num 1)
    (by rfl) (List.Mem.head _) (by decide) (by decide) (by rfl)

/-!
C1: controller instances survive temporary DOM removal and re-insertion.
-/

/-- C1: removing a host element from the document and re-inserting it reuses
the same controller instance. Removal runs only `disconnected()` for the
instance; re-insertion finds the token still present in the host map, so
`injectAspect` skips construction and the connect loop runs only
`connected()`; the instance record (index, token, host) is identical before
and after, and no second `initialized` ever fires. -/
theorem C1_instance_survives_reinsertion (reg : Registry) (fuel : Nat) (tok v : String)
    (cls : AspectClass)
    (htok : tok ≠ "") (hdot : strContainsSub tok "." = false)
    (hv : splitSpace v = [tok])
    (hcls : mapGet reg.aspectRegister tok = some cls)
    (hct : mapGet reg.customTags "DIV" = none) :
    Connector.removeAndDisconnectSelf reg (c1State tok v) 0 = some (c1Removed tok v) ∧
    Connector.reinsertAndConnectSelf reg (fuel + 1) (c1Removed tok v) 0
      = some (c1Reinserted tok v) ∧
    lifeFilter 0 (traceDelta (c1State tok v) (c1Removed tok v)) = [Event.disconnected 0] ∧
    lifeFilter 0 (traceDelta (c1Removed tok v) (c1Reinserted tok v)) = [Event.connected 0] ∧
    (c1Reinserted tok v).insts.get? 0 = (c1State tok v).insts.get? 0 ∧
    mapGet (getEl (c1Reinserted tok v) 0).tm_host tok
      = mapGet (getEl (c1State tok v) 0).tm_host tok ∧
    Event.initialized 0 ∉ traceDelta (c1State tok v) (c1Reinserted tok v) := by
  have htok' : (tok != "") = true := by rwa [bne_iff_ne]
  have hca : connectAttr = "data-connect" := rfl
  have hha : handlerAttr = "data-handler" := rfl
  have hsa : scopeAttr = "data-scope" := rfl
  have hm1 : mapGet [("data-connect", v)] "data-connect" = some v := rfl
  have hm2 : mapGet [("data-connect", v)] "data-handler" = none := rfl
  have hm3 : ∀ X : String,
      mapGet [("data-connect", v), ("data-scope", X)] "data-connect" = some v := fun _ => rfl
  have hm4 : ∀ X : String,
      mapGet [("data-connect", v), ("data-scope", X)] "data-handler" = none := fun _ => rfl
  have hm5 : mapHas [(tok, (0 : Nat))] tok = true := by
    simp [mapHas, mapGet, List.find?]
  have hm6 : ∀ X : String, mapSet [("data-connect", v)] "data-scope" X
      = [("data-connect", v), ("data-scope", X)] := fun _ => rfl
  refine ⟨rfl, ?_, rfl, rfl, rfl, rfl, by simp [traceDelta, c1State, c1Reinserted]⟩
  simp [Connector.reinsertAndConnectSelf, Connector.connectNodeSelf, Connector.hostElAdded,
    Connector.hostTokensAdded, Connector.injectList, Connector.injectAspect,
    Connector.setHostScopeAttribute, Connector.connectAspectStep, Connector.childElAdded,
    Connector.childTokensAdded, Connector.filterHostTokens, Connector.filterChildTokens,
    c1State, c1Removed, c1Reinserted, c1El, getAttrVal, getEl, setEl, emit,
    setAdd, setDelete, List.getD, List.set, List.get?,
    hca, hha, hsa, hm1, hm2, hm3, hm4, hm5, hm6,
    hv, hcls, hct, hdot, htok', scopeStringOf_empty_beq]

/-- Witness for C1 with the one-token registry: remove fires only
`disconnected`, reinsert fires only `connected`, the instance record is
unchanged and `initialized` never reappears. -/
theorem C1_instance_survives_reinsertion_witness :
    Connector.removeAndDisconnectSelf c1Reg (c1State "t" "t") 0 = some (c1Removed "t" "t") ∧
    Connector.reinsertAndConnectSelf c1Reg 1 (c1Removed "t" "t") 0
      = some (c1Reinserted "t" "t") ∧
    lifeFilter 0 (traceDelta (c1State "t" "t") (c1Removed "t" "t"))
      = [Event.disconnected 0] ∧
    lifeFilter 0 (traceDelta (c1Removed "t" "t") (c1Reinserted "t" "t"))
      = [Event.connected 0] ∧
    (c1Reinserted "t" "t").insts.get? 0 = (c1State "t" "t").insts.get? 0 ∧
    mapGet (getEl (c1Reinserted "t" "t") 0).tm_host "t"
      = mapGet (getEl (c1State "t" "t") 0).tm_host "t" ∧
    Event.initialized 0 ∉ traceDelta (c1State "t" "t") (c1Reinserted "t" "t") :=
  C1_instance_survives_reinsertion c1Reg 0 "t" "t" ⟨[], [], []⟩
    (by decide) (by decide) (by decide) (by rfl) (by rfl)

/-!
C2: orphan registration, automatic late connection, and re-orphaning.
-/

/-- C2: a target element whose descriptor names a remote host id before any
such host exists is stored unresolved and indexed as an orphan (no callbacks
fire); when a host with that id and token later has its tokens processed,
the instance is created and connected and the orphan link is resolved
automatically — the record now points at the instance, is connected, and the
`<type>ElementConnected` callback fires; and when that host is removed while
the target is still attached, the link is disconnected and the element is
re-registered as an orphan of the same host id rather than discarded. -/
theorem C2_orphan_lifecycle (fuel : Nat) (tok ty h d : String) (ms : List String)
    (hd : splitDotHash d = [tok, ty, h])
    (htok : tok ≠ "") (hty : ty ≠ "") (hh : h ≠ "")
    (hdc : strContainsSub d (tok ++ ".") = true)
    (hmc : ms.contains (camelCase ty ++ "ElementConnected") = true)
    (hmd : ms.contains (camelCase ty ++ "ElementDisconnected") = true) :
    Connector.childTokensAdded (c2Reg tok ty ms) (c2Start d h) 0 [d]
      = c2Orphaned d tok ty h ∧
    mapGet (c2Orphaned d tok ty h).orphanHosts h = some [(0, [d])] ∧
    traceDelta (c2Start d h) (c2Orphaned d tok ty h) = [] ∧
    Connector.hostTokensAdded (c2Reg tok ty ms) (fuel + 1) (c2Ready d tok ty h) 1 [tok] false
      = some (c2Connected d tok ty h) ∧
    mapGet (getEl (c2Connected d tok ty h) 0).tm_child d
      = some ⟨0, some tok, some ty, some h, some 0, true⟩ ∧
    lifeFilter 0 (traceDelta (c2Ready d tok ty h) (c2Connected d tok ty h))
      = [Event.initialized 0, Event.connected 0] ∧
    Event.elemConnected 0 ty 0 ∈ traceDelta (c2Ready d tok ty h) (c2Connected d tok ty h) ∧
    Connector.hostElRemoved (c2Reg tok ty ms) (c2Detached d tok ty h) 1
      = some (c2Reorphaned d tok ty h) ∧
    mapGet (c2Reorphaned d tok ty h).orphanHosts h = some [(0, [d])] ∧
    mapGet (getEl (c2Reorphaned d tok ty h) 0).tm_child d = none ∧
    (getEl (c2Reorphaned d tok ty h) 0).attached = true ∧
    Event.elemDisconnected 0 ty 0
      ∈ traceDelta (c2Detached d tok ty h) (c2Reorphaned d tok ty h) ∧
    lifeFilter 0 (traceDelta (c2Detached d tok ty h) (c2Reorphaned d tok ty h))
      = [Event.disconnected 0] := by
  have h4 : ("" : String) ≠ h := Ne.symm hh
  have hb1 : (ty == "") = false := beq_eq_false_iff_ne.mpr hty
  have hb2 : (tok == "") = false := beq_eq_false_iff_ne.mpr htok
  have hb3 : (h == "") = false := beq_eq_false_iff_ne.mpr hh
  have hb4 : (("" : String) == h) = false := beq_eq_false_iff_ne.mpr h4
  have hb5 : (h != "") = true := by rwa [bne_iff_ne]
  have hsa : scopeAttr = "data-scope" := rfl
  have hIL : ∀ s : ConnState, Connector.injectList (c2Reg tok ty ms) fuel s 1 [] = some s :=
    fun s => by simp [Connector.injectList]
  refine ⟨?_, by simp [c2Orphaned, mapGet, List.find?], by rfl, ?_, ?_, by rfl, ?_, ?_,
    by simp [c2Reorphaned, mapGet, List.find?], by rfl, by rfl, ?_, by rfl⟩
  · simp only [Connector.childTokensAdded, List.foldl_cons, List.foldl_nil]
    simp only [ElementConnection.new, hd, getElementById, c2Start, getEl, setEl,
      List.get?_cons_zero, List.get?_cons_succ, List.get?_nil, Option.getD_some,
      Option.getD_none, hb1, hb2, hb3, hb4, hb5, Bool.or_self, Bool.false_or, Bool.or_false,
      if_false, Bool.false_eq_true, List.range_succ, List.range_zero]
    simp [Connector.addOrphan, connTruthyHostId, storeConn, getEl, setEl,
      c2Reg, c2Orphaned, emit, mapGet, mapHas, mapSet, mapDelete,
      setAdd, setDelete, List.find?, List.getD, List.set,
      htok, hty, hh, h4, hb1, hb2, hb3, hb4, hb5]
  · simp only [Connector.hostTokensAdded, Connector.injectList, Connector.injectAspect,
      Connector.aspectConstruct, c2Reg, c2Ready, getEl, setEl,
      List.isEmpty_cons, List.getD, List.get?_cons_zero, List.get?_cons_succ, List.get?_nil,
      Option.getD_some, Option.getD_none, hIL,
      mapGet, mapHas, mapSet, mapDelete, List.find?, beq_self_eq_true, Option.isSome_some,
      Option.map_some', List.any_nil, List.any_cons, emit,
      if_true, Bool.false_eq_true, if_false]
    simp only [List.nil_append, List.length_nil, List.map_cons, List.map_nil,
      List.set_cons_zero, List.set_cons_succ, List.set_nil,
      Connector.setHostScopeAttribute, scopeStringOf_empty_beq, Bool.false_eq_true, if_false,
      getEl, setEl, List.getD, List.get?_cons_zero, List.get?_cons_succ, List.get?_nil,
      Option.getD_some, Option.getD_none, mapSet, mapHas, mapGet, List.find?,
      Option.isSome_none, List.any_nil, Bool.false_eq_true]
    simp only [hsa, List.foldl_cons, List.foldl_nil, Connector.connectAspectStep,
      List.get?_cons_zero, List.get?_cons_succ, List.get?_nil, getEl, setEl, List.getD,
      Option.getD_some, Option.getD_none, emit, setAdd, List.set_cons_zero, List.set_cons_succ,
      List.set_nil, Bool.false_eq_true, if_false, if_true, List.contains_nil,
      List.elem_nil, List.nil_append, hb3, bne_self_eq_false, hb5]
    simp [Connector.resolveOrphansFor, Connector.childTokensAdded, ElementConnection.new,
      ElementConnection.connect, instAddElem, methodsOf, Connector.addOrphan,
      connTruthyHostId, storeConn, getElementById, c2Connected,
      getEl, setEl, emit, mapGet, mapHas, mapSet, mapDelete, setAdd, setDelete,
      List.find?, List.getD, List.set, List.range_succ,
      hd, htok, hty, hh, h4, hb1, hb2, hb3, hb4, hb5, hdc, hmc,
      List.mem_of_elem_eq_true hmc]
  · simp [c2Connected, getEl, List.getD, mapGet, List.find?]
  · simp [traceDelta, c2Ready, c2Connected]
  · simp only [Connector.hostElRemoved, c2Detached, getEl, List.getD,
      List.get?_cons_zero, List.get?_cons_succ, List.get?_nil, Option.getD_some,
      Option.getD_none, List.foldlM_cons, List.foldlM_nil]
    simp [Connector.disconnectAspect, Connector.disconnectAspectElems,
      Connector.disconnectChildEntry, ElementConnection.disconnect, instDelElem,
      Connector.addOrphan, connTruthyHostId, methodsOf, c2Reg, c2Reorphaned,
      getEl, setEl, emit, mapGet, mapHas, mapSet, mapDelete, setAdd, setDelete,
      List.find?, List.getD, List.set,
      htok, hty, hh, h4, hb3, hb5, hmd, List.mem_of_elem_eq_true hmd]
  · simp [traceDelta, c2Detached, c2Reorphaned]

/-- Witness for C2 at the concrete descriptor `t.x#hh` with methods for both
element callbacks. -/
theorem C2_orphan_lifecycle_witness :
    Connector.childTokensAdded (c2Reg "t" "x" ["xElementConnected", "xElementDisconnected"])
        (c2Start "t.x#hh" "hh") 0 ["t.x#hh"] = c2Orphaned "t.x#hh" "t" "x" "hh" ∧
    mapGet (c2Orphaned "t.x#hh" "t" "x" "hh").orphanHosts "hh" = some [(0, ["t.x#hh"])] ∧
    traceDelta (c2Start "t.x#hh" "hh") (c2Orphaned "t.x#hh" "t" "x" "hh") = [] ∧
    Connector.hostTokensAdded (c2Reg "t" "x" ["xElementConnected", "xElementDisconnected"])
        3 (c2Ready "t.x#hh" "t" "x" "hh") 1 ["t"] false
      = some (c2Connected "t.x#hh" "t" "x" "hh") ∧
    mapGet (getEl (c2Connected "t.x#hh" "t" "x" "hh") 0).tm_child "t.x#hh"
      = some ⟨0, some "t", some "x", some "hh", some 0, true⟩ ∧
    lifeFilter 0 (traceDelta (c2Ready "t.x#hh" "t" "x" "hh")
        (c2Connected "t.x#hh" "t" "x" "hh"))
      = [Event.initialized 0, Event.connected 0] ∧
    Event.elemConnected 0 "x" 0
      ∈ traceDelta (c2Ready "t.x#hh" "t" "x" "hh") (c2Connected "t.x#hh" "t" "x" "hh") ∧
    Connector.hostElRemoved (c2Reg "t" "x" ["xElementConnected", "xElementDisconnected"])
        (c2Detached "t.x#hh" "t" "x" "hh") 1
      = some (c2Reorphaned "t.x#hh" "t" "x" "hh") ∧
    mapGet (c2Reorphaned "t.x#hh" "t" "x" "hh").orphanHosts "hh" = some [(0, ["t.x#hh"])] ∧
    mapGet (getEl (c2Reorphaned "t.x#hh" "t" "x" "hh") 0).tm_child "t.x#hh" = none ∧
    (getEl (c2Reorphaned "t.x#hh" "t" "x" "hh") 0).attached = true ∧
    Event.elemDisconnected 0 "x" 0
      ∈ traceDelta (c2Detached "t.x#hh" "t" "x" "hh") (c2Reorphaned "t.x#hh" "t" "x" "hh") ∧
    lifeFilter 0 (traceDelta (c2Detached "t.x#hh" "t" "x" "hh")
        (c2Reorphaned "t.x#hh" "t" "x" "hh"))
      = [Event.disconnected 0] :=
  C2_orphan_lifecycle 2 "t" "x" "hh" "t.x#hh" ["xElementConnected", "xElementDisconnected"]
    (by decide) (by decide) (by decide) (by decide) (by decide) (by decide) (by decide)

end Stim
